import Mathlib

/-!
Verification of the spreadsheet document-model library (workbook / worksheet /
cell / shared-string table / style table / table / save orchestration).

The TypeScript sources are shallowly embedded: JS `Map`s become
insertion-ordered association lists, JS numbers become `Nat`/`Int`/`Rat` as
appropriate, fallible methods return `Except`/`Option`, and mutation becomes
explicit state passing.  Each definition mirrors one source function and keeps
its name where Lean allows it.
-/

set_option maxHeartbeats 1000000

namespace Excel

/-! ## Insertion-ordered association maps (embedding of JS `Map`) -/

/-- `Map.get`: first entry with the given key, if any. -/
def mapGet? {α β : Type} [DecidableEq α] : List (α × β) → α → Option β
  | [], _ => none
  | e :: rest, k => if e.1 = k then some e.2 else mapGet? rest k

/-- `Map.set`: replace the value at an existing key in place, else append. -/
def mapSet {α β : Type} [DecidableEq α] : List (α × β) → α → β → List (α × β)
  | [], k, v => [(k, v)]
  | e :: rest, k, v => if e.1 = k then (k, v) :: rest else e :: mapSet rest k v

/-- Index of the first occurrence of `x`, if present (JS `indexOf`-style). -/
def firstIdx? {α : Type} [DecidableEq α] : List α → α → Option Nat
  | [], _ => none
  | a :: rest, x => if a = x then some 0 else (firstIdx? rest x).map (· + 1)

/-! ## Address codec (src/utils/address.ts)

Strings are handled at the `List Char` level where character arithmetic is
needed; `colToLetter` mirrors the JS loop
`while (n >= 0) { result = chr(n % 26 + 65) + result; n = ⌊n / 26⌋ - 1 }`. -/

/-- The `colToLetter` loop with an explicit iteration bound: `n` strictly
decreases across `n := n / 26 - 1`, so `n + 1` rounds always suffice; the
bound only makes the recursion structural (and hence kernel-computable). -/
def colToLetterAux : Nat → Nat → List Char
  | 0, _ => []
  | fuel + 1, n =>
      if n < 26 then [Char.ofNat (n % 26 + 65)]
      else colToLetterAux fuel (n / 26 - 1) ++ [Char.ofNat (n % 26 + 65)]

/-- `colToLetter`: bijective base-26 rendering of a 0-based column index. -/
def colToLetter (n : Nat) : List Char :=
  colToLetterAux (n + 1) n

/-- JS `colToLetter` on an arbitrary (possibly negative) number: the loop body
never runs for negative input, yielding the empty string. -/
def colToLetterI (n : Int) : List Char :=
  if n < 0 then [] else colToLetter n.toNat

/-- The accumulating loop of `letterToCol`:
`col = col * 26 + (charCode - 64)`. -/
def letterFold (l : List Char) : Nat :=
  l.foldl (fun col ch => col * 26 + (ch.toNat - 64)) 0

/-- The fold inside `letterToCol` before the final `- 1`, applied to the
upper-cased letters. -/
def letterVal (letters : List Char) : Nat :=
  letterFold (letters.map Char.toUpper)

/-- `letterToCol`: case-insensitive inverse of `colToLetter` (0-based).
JS returns `-1` on the empty string, hence the `Int` codomain. -/
def letterToCol (letters : List Char) : Int :=
  (letterVal letters : Int) - 1

/-- ASCII letter test, the `[A-Za-z]` character class. -/
def isAsciiAlpha (c : Char) : Bool :=
  (65 ≤ c.toNat && c.toNat ≤ 90) || (97 ≤ c.toNat && c.toNat ≤ 122)

/-- ASCII digit test, the `\d` character class. -/
def isAsciiDigit (c : Char) : Bool :=
  48 ≤ c.toNat && c.toNat ≤ 57

/-- `parseInt` on an all-digit string. -/
def parseDigits (ds : List Char) : Nat :=
  ds.foldl (fun a c => a * 10 + (c.toNat - 48)) 0

/-- A cell address: 0-based row and column.  JS `parseAddress` can produce
row `-1` (input row digits `0`), hence `Int`. -/
structure CellAddress where
  row : Int
  col : Int
  deriving DecidableEq, Repr

/-- `parseAddress`: strip `$`, match `^([A-Za-z]+)(\d+)$` (case-insensitive),
convert letters via `letterToCol` and the 1-based row via `parseInt ... - 1`.
`none` models the thrown "Invalid cell address" error. -/
def parseAddress (address : List Char) : Option CellAddress :=
  let clean := address.filter (fun c => c ≠ '$')
  let letters := clean.takeWhile isAsciiAlpha
  let digits := clean.dropWhile isAsciiAlpha
  if letters ≠ [] ∧ digits ≠ [] ∧ digits.all isAsciiDigit then
    some { row := (parseDigits digits : Int) - 1, col := letterToCol letters }
  else
    none

/-- `toAddress`: `colToLetter(col) + String(row + 1)`. -/
def toAddress (row col : Int) : List Char :=
  colToLetterI col ++ (toString (row + 1)).data

/-- The canonical form of an address as the spec words it: `$` anchors
stripped and the column letters upper-cased. -/
def canonicalForm (address : List Char) : List Char :=
  let clean := address.filter (fun c => c ≠ '$')
  (clean.takeWhile isAsciiAlpha).map Char.toUpper ++ clean.dropWhile isAsciiAlpha

/-- A range address (start/end cell). -/
structure RangeAddress where
  start : CellAddress
  «end» : CellAddress
  deriving DecidableEq, Repr

/-- `String.split(sep)` for a single separator character (structural, so it
is kernel-computable). -/
def splitOnChar (sep : Char) : List Char → List (List Char)
  | [] => [[]]
  | c :: rest =>
      match splitOnChar sep rest with
      | [] => if c = sep then [[], []] else [[c]]
      | h :: t => if c = sep then [] :: h :: t else (c :: h) :: t

/-- `parseRange`: split on `:`; a single cell gives a zero-size range. -/
def parseRange (range : List Char) : Option RangeAddress := do
  match splitOnChar ':' range with
  | [single] => do
      let addr ← parseAddress single
      pure { start := addr, «end» := addr }
  | [first, second] => do
      let s ← parseAddress first
      let e ← parseAddress second
      pure { start := s, «end» := e }
  | _ => none

/-- `normalizeRange`: start becomes the top-left corner. -/
def normalizeRange (r : RangeAddress) : RangeAddress :=
  { start := { row := min r.start.row r.end.row, col := min r.start.col r.end.col },
    «end» := { row := max r.start.row r.end.row, col := max r.start.col r.end.col } }

/-! ## Date serial conversion (cell.ts `_excelDateToJs` / `_jsDateToExcel`)

A JS `Date` is its UTC timestamp in milliseconds (`Int`); serial numbers are
exact rationals.  All values arising from real calendar dates are integral,
where IEEE double arithmetic in the source is exact. -/

/-- `Date.UTC(1899, 11, 30)`: the serial-date epoch, December 30 1899. -/
def excelEpochMs : Int := -2209161600000

/-- Milliseconds per day. -/
def msPerDay : Int := 86400000

/-- `Cell._jsDateToExcel`: `serial = (t - epoch)/MS_PER_DAY + 1`, plus one
extra day for serials past the fictitious Feb 29 1900. -/
def jsDateToExcel (tms : Int) : ℚ :=
  let serial : ℚ := ((tms : ℚ) - (excelEpochMs : ℚ)) / (msPerDay : ℚ) + 1
  if 60 < serial then serial + 1 else serial

/-- `Cell._excelDateToJs`: undo the leap-year-bug compensation for serials
above 60, then `epoch + round((serial - 1) * MS_PER_DAY)`. -/
def excelDateToJs (serial : ℚ) : Int :=
  let adjusted : ℚ := if 60 < serial then serial - 1 else serial
  excelEpochMs + round ((adjusted - 1) * (msPerDay : ℚ))

/-! ## Shared string table (shared-strings.ts, the variant tracking total usage) -/

/-- State of the `SharedStrings` class: entry texts in order, the
`stringToIndex` map, the `_totalCount` usage counter and the dirty flag. -/
structure SharedStrings where
  entries : List String
  stringToIndex : List (String × Nat)
  totalUsage : Nat
  dirty : Bool
  deriving DecidableEq, Repr

/-- A freshly constructed shared string table. -/
def SharedStrings.new : SharedStrings :=
  { entries := [], stringToIndex := [], totalUsage := 0, dirty := false }

/-- `addString`: reuse the index of a previously seen string, else append;
the total-usage counter is bumped either way. -/
def SharedStrings.addString (ss : SharedStrings) (str : String) : Nat × SharedStrings :=
  match mapGet? ss.stringToIndex str with
  | some existing =>
      (existing, { ss with totalUsage := ss.totalUsage + 1, dirty := true })
  | none =>
      let index := ss.entries.length
      (index,
        { ss with
          entries := ss.entries ++ [str]
          stringToIndex := mapSet ss.stringToIndex str index
          totalUsage := ss.totalUsage + 1
          dirty := true })

/-- The `count` getter (number of unique entries). -/
def SharedStrings.count (ss : SharedStrings) : Nat :=
  ss.entries.length

/-- The `totalCount` getter: `Math.max(this._totalCount, this.entries.length)`. -/
def SharedStrings.totalCount (ss : SharedStrings) : Nat :=
  max ss.totalUsage ss.entries.length

/-- `getString(index)`: JS array indexing by an arbitrary number; fractional
or negative indices read `undefined`. -/
def SharedStrings.getString (ss : SharedStrings) (index : ℚ) : Option String :=
  if 0 ≤ index.num ∧ index.den = 1 then ss.entries.get? index.num.toNat else none

/-- Run a sequence of `addString` calls, keeping the final table. -/
def SharedStrings.addAll (ss : SharedStrings) (strs : List String) : SharedStrings :=
  strs.foldl (fun st s => (st.addString s).2) ss

/-! ## Style table (styles.ts) -/

/-- Border line styles. -/
inductive BorderType
  | thin | medium | thick | double | dotted | dashed
  deriving DecidableEq, Repr

/-- The `underline` style field: JS `boolean | 'single' | 'double'`. -/
inductive Underline
  | b (v : Bool) | single | double
  deriving DecidableEq, Repr

/-- Horizontal alignment values. -/
inductive HAlign
  | left | center | right | justify
  deriving DecidableEq, Repr

/-- Vertical alignment values. -/
inductive VAlign
  | top | middle | bottom
  deriving DecidableEq, Repr

/-- `BorderStyle`: per-edge line styles. -/
structure BorderStyle where
  top : Option BorderType := none
  bottom : Option BorderType := none
  left : Option BorderType := none
  right : Option BorderType := none
  deriving DecidableEq, Repr

/-- `Alignment` config. -/
structure Alignment where
  horizontal : Option HAlign := none
  vertical : Option VAlign := none
  wrapText : Option Bool := none
  textRotation : Option Int := none
  deriving DecidableEq, Repr

/-- `CellStyle`: the user-facing style object (all fields optional). -/
structure CellStyle where
  bold : Option Bool := none
  italic : Option Bool := none
  underline : Option Underline := none
  strike : Option Bool := none
  fontSize : Option ℚ := none
  fontName : Option String := none
  fontColor : Option String := none
  fill : Option String := none
  border : Option BorderStyle := none
  alignment : Option Alignment := none
  numberFormat : Option String := none
  deriving DecidableEq, Repr

/-- Internal `StyleFont` record. -/
structure StyleFont where
  bold : Bool
  italic : Bool
  underline : Bool
  strike : Bool
  size : Option ℚ := none
  name : Option String := none
  color : Option String := none
  deriving DecidableEq, Repr

/-- Internal `StyleFill` record. -/
structure StyleFill where
  type : String
  fgColor : Option String := none
  bgColor : Option String := none
  deriving DecidableEq, Repr

/-- Internal `StyleBorder` record. -/
structure StyleBorder where
  top : Option BorderType := none
  bottom : Option BorderType := none
  left : Option BorderType := none
  right : Option BorderType := none
  deriving DecidableEq, Repr

/-- Internal `CellXf` composite record. -/
structure CellXf where
  fontId : Nat
  fillId : Nat
  borderId : Nat
  numFmtId : Nat
  alignment : Option Alignment := none
  deriving DecidableEq, Repr

/-- State of the `Styles` class.  The `_styleCache` keyed by
`JSON.stringify(style)` is modelled as a map keyed by the style value
itself: on the fixed record layout used throughout the class, `stringify`
is injective in the structural value. -/
structure Styles where
  numFmts : List (Nat × String)
  fonts : List StyleFont
  fills : List StyleFill
  borders : List StyleBorder
  cellXfs : List CellXf
  dirty : Bool
  styleCache : List (CellStyle × Nat)
  deriving DecidableEq, Repr

/-- `Styles.createDefault`: default font, the two required fills, an empty
border and the default cell format. -/
def Styles.createDefault : Styles :=
  { numFmts := []
    fonts := [{ bold := false, italic := false, underline := false, strike := false,
                size := some 11, name := some "Calibri", color := none }]
    fills := [{ type := "none" }, { type := "gray125" }]
    borders := [{}]
    cellXfs := [{ fontId := 0, fillId := 0, borderId := 0, numFmtId := 0 }]
    dirty := false
    styleCache := [] }

/-- The boolean `underline` flag of `_findOrCreateFont`:
`style.underline === true || style.underline === 'single' || style.underline === 'double'`. -/
def underlineFlag : Option Underline → Bool
  | some (.b true) => true
  | some .single => true
  | some .double => true
  | _ => false

/-- `_findOrCreateFont`: build the font record from the style, reuse an
equal existing font, else append. -/
def findOrCreateFont (fonts : List StyleFont) (style : CellStyle) : Nat × List StyleFont :=
  let font : StyleFont :=
    { bold := style.bold.getD false
      italic := style.italic.getD false
      underline := underlineFlag style.underline
      strike := style.strike.getD false
      size := style.fontSize
      name := style.fontName
      color := style.fontColor }
  match firstIdx? fonts font with
  | some i => (i, fonts)
  | none => (fonts.length, fonts ++ [font])

/-- First index satisfying a predicate. -/
def firstIdxP? {α : Type} : List α → (α → Bool) → Option Nat
  | [], _ => none
  | a :: rest, p => if p a then some 0 else (firstIdxP? rest p).map (· + 1)

/-- `_findOrCreateFill`: no fill gives index 0; else reuse the first fill
with the same foreground color, else append a solid fill. -/
def findOrCreateFill (fills : List StyleFill) (style : CellStyle) : Nat × List StyleFill :=
  match style.fill with
  | none => (0, fills)
  | some fg =>
      match firstIdxP? fills (fun f => f.fgColor = some fg) with
      | some i => (i, fills)
      | none => (fills.length, fills ++ [{ type := "solid", fgColor := some fg }])

/-- `_findOrCreateBorder`: no border gives index 0; else reuse an equal
existing border, else append. -/
def findOrCreateBorder (borders : List StyleBorder) (style : CellStyle) : Nat × List StyleBorder :=
  match style.border with
  | none => (0, borders)
  | some b =>
      let border : StyleBorder := { top := b.top, bottom := b.bottom, left := b.left, right := b.right }
      match firstIdx? borders border with
      | some i => (i, borders)
      | none => (borders.length, borders ++ [border])

/-- `_findOrCreateNumFmt`: reuse the id of an existing format code, else
allocate `Math.max(164, ...keys) + 1` and record it. -/
def findOrCreateNumFmt (numFmts : List (Nat × String)) (format : String) : Nat × List (Nat × String) :=
  match (numFmts.find? (fun e => e.2 = format)).map (·.1) with
  | some id => (id, numFmts)
  | none =>
      let id := ((numFmts.map (·.1)).foldl max 164) + 1
      (id, numFmts ++ [(id, format)])

/-- `createStyle`: content-addressed via the style cache; on a miss,
deduplicate fonts/fills/borders/number formats and append a new `CellXf`. -/
def Styles.createStyle (st : Styles) (style : CellStyle) : Nat × Styles :=
  match mapGet? st.styleCache style with
  | some cached => (cached, st)
  | none =>
      let fontR := findOrCreateFont st.fonts style
      let fillR := findOrCreateFill st.fills style
      let borderR := findOrCreateBorder st.borders style
      let numFmtR := match style.numberFormat with
        | some fmt => findOrCreateNumFmt st.numFmts fmt
        | none => (0, st.numFmts)
      let xf : CellXf :=
        { fontId := fontR.1, fillId := fillR.1, borderId := borderR.1, numFmtId := numFmtR.1,
          alignment := style.alignment }
      let index := st.cellXfs.length
      (index,
        { numFmts := numFmtR.2
          fonts := fontR.2
          fills := fillR.2
          borders := borderR.2
          cellXfs := st.cellXfs ++ [xf]
          dirty := true
          styleCache := mapSet st.styleCache style index })

/-! ## Number-format id lookup (`getOrCreateNumFmtId`)

Modelled from the spec: `Styles.getOrCreateNumFmtId` is called from the
pivot-table and workbook sources and exercised by the test suite, but its
definition is not among the provided sources (the `Styles` class present
here only has the private `_findOrCreateNumFmt`).  Per spec §4.3: a fixed
table of built-in format codes maps to reserved ids 0–49; any other code is
assigned a new id starting at 164 and upward, with exact-string reuse. -/

/-- Modelled from the spec: the fixed built-in number-format table
(the reserved-id pairs the spec lists). -/
def builtinNumFmts : List (String × Nat) :=
  [("General", 0), ("0", 1), ("0.00", 2), ("#,##0", 3), ("#,##0.00", 4),
   ("0%", 9), ("0.00%", 10), ("mm-dd-yy", 14), ("d-mmm-yy", 15), ("@", 49)]

/-- Custom number-format registry: assigned codes and the next free id. -/
structure NumFmtRegistry where
  custom : List (String × Nat)
  nextId : Nat
  deriving DecidableEq, Repr

/-- A fresh registry: custom ids start at 164. -/
def NumFmtRegistry.new : NumFmtRegistry :=
  { custom := [], nextId := 164 }

/-- Modelled from the spec: `getOrCreateNumFmtId(formatCode)` — built-in
codes resolve through the fixed table; other codes reuse their previously
assigned id or receive the next id at or above 164. -/
def getOrCreateNumFmtId (st : NumFmtRegistry) (code : String) : Nat × NumFmtRegistry :=
  match mapGet? builtinNumFmts code with
  | some id => (id, st)
  | none =>
      match mapGet? st.custom code with
      | some id => (id, st)
      | none => (st.nextId, { custom := mapSet st.custom code st.nextId, nextId := st.nextId + 1 })

/-! ## Cells and worksheets (cell.ts, worksheet.ts) -/

/-- The `t` attribute of raw cell data. -/
inductive CellTypeTag
  | n | s | str | b | e | d
  deriving DecidableEq, Repr

/-- The raw stored value `v : number | string | boolean`; `nanNum` is the
JS number `NaN`. -/
inductive RawValue
  | num (x : ℚ)
  | nanNum
  | str (s : String)
  | bool (b : Bool)
  deriving DecidableEq, Repr

/-- Internal `CellData`. -/
structure CellData where
  t : Option CellTypeTag := none
  v : Option RawValue := none
  f : Option String := none
  s : Option Nat := none
  w : Option String := none
  z : Option String := none
  F : Option String := none
  D : Option Bool := none
  si : Option Nat := none
  deriving DecidableEq, Repr

/-- A user-visible `CellValue`; `nan` is the JS number `NaN` and `date`
carries the ISO timestamp string of the JS `Date`. -/
inductive JSValue
  | num (x : ℚ)
  | nan
  | str (s : String)
  | bool (b : Bool)
  | date (iso : String)
  | error (e : String)
  | null
  deriving DecidableEq, Repr

/-- The closed set of error literals (`ERROR_TYPES`). -/
def ERROR_TYPES : List String :=
  ["#NULL!", "#DIV/0!", "#VALUE!", "#REF!", "#NAME?", "#NUM!", "#N/A", "#GETTING_DATA"]

/-- JS string falsiness: `undefined` or the empty string. -/
def jsFalsyStr : Option String → Bool
  | none => true
  | some s => s = ""

/-- `String(v)` for a raw value or `undefined`.  Integral numbers render as
in JS; the non-integral rendering is a stand-in (no claim exercises it). -/
def jsNumToString (x : ℚ) : String :=
  if x.den = 1 then toString x.num else toString x

/-- `String(...)` over raw cell values. -/
def jsToStringRaw : Option RawValue → String
  | none => "undefined"
  | some (.num x) => jsNumToString x
  | some .nanNum => "NaN"
  | some (.str s) => s
  | some (.bool b) => if b then "true" else "false"

/-- `parseFloat`: longest decimal prefix with optional sign and fraction
(exponent notation is not modelled; no embedded call site produces it). -/
def jsParseFloat (s : String) : JSValue :=
  let cs := s.data.dropWhile (fun c => c = ' ')
  let signRest : Bool × List Char :=
    match cs with
    | '-' :: r => (true, r)
    | '+' :: r => (false, r)
    | r => (false, r)
  let rest := signRest.2
  let intPart := rest.takeWhile isAsciiDigit
  let rest2 := rest.dropWhile isAsciiDigit
  let fracPart := match rest2 with
    | '.' :: r => r.takeWhile isAsciiDigit
    | _ => []
  if intPart = [] ∧ fracPart = [] then JSValue.nan
  else
    let q : ℚ := (parseDigits intPart : ℚ) + (parseDigits fracPart : ℚ) / ((10 : ℚ) ^ fracPart.length)
    JSValue.num (if signRest.1 then -q else q)

/-- The `Cell.value` getter (with `_isDateFormat` being the source's stub
returning `false`). -/
def cellValueGet (shared : SharedStrings) (data : CellData) : JSValue :=
  if data.v = none ∧ jsFalsyStr data.f then JSValue.null
  else
    match data.t with
    | some .n =>
        match data.v with
        | some (.num x) => .num x
        | some .nanNum => .nan
        | v => jsParseFloat (jsToStringRaw v)
    | some .s =>
        match data.v with
        | some (.num x) => .str ((shared.getString x).getD "")
        | some .nanNum => .str ""
        | v => .str (jsToStringRaw v)
    | some .str => .str (jsToStringRaw data.v)
    | some .b =>
        .bool (data.v = some (.num 1) ∨ data.v = some (.str "1") ∨ data.v = some (.bool true))
    | some .e => .error (jsToStringRaw data.v)
    | some .d => .date (jsToStringRaw data.v)
    | none =>
        match data.v with
        | some (.num x) => .num x
        | some .nanNum => .nan
        | some (.str s) => if s ∈ ERROR_TYPES then .error s else .str s
        | some (.bool b) => .bool b
        | none => .null

/-- The `Cell.value` setter body: update the raw data (and the shared string
table for strings); every branch clears the formula. -/
def cellValueSet (shared : SharedStrings) (data : CellData) (val : JSValue) :
    SharedStrings × CellData :=
  match val with
  | .null => (shared, { data with v := none, t := none, f := none })
  | .num x => (shared, { data with v := some (.num x), t := some .n, f := none })
  | .nan => (shared, { data with v := some .nanNum, t := some .n, f := none })
  | .str s =>
      let r := shared.addString s
      (r.2, { data with v := some (.num (r.1 : ℚ)), t := some .s, f := none })
  | .bool b => (shared, { data with v := some (.num (if b then 1 else 0)), t := some .b, f := none })
  | .date iso => (shared, { data with v := some (.str iso), t := some .d, f := none })
  | .error e => (shared, { data with v := some (.str e), t := some .e, f := none })

/-- The `Cell.formula` setter body: strip a leading `=`. -/
def cellFormulaSet (data : CellData) (f : Option String) : CellData :=
  match f with
  | none => { data with f := none }
  | some s =>
      { data with f := some (if s.data.head? = some '=' then String.mk s.data.tail else s) }

/-- A cell: address, raw data, dirty flag.  The constructor leaves the
dirty flag `false`. -/
structure Cell where
  row : Nat
  col : Nat
  data : CellData
  dirty : Bool
  deriving DecidableEq, Repr

/-- The address key used in the worksheet cell map. -/
def addrKey (row col : Nat) : String :=
  String.mk (toAddress (row : Int) (col : Int))

/-- Worksheet state: the sparse cell map, the sheet-level dirty flag and the
data-bounds cache invalidation flag. -/
structure Worksheet where
  cells : List (String × Cell)
  dirty : Bool
  boundsDirty : Bool
  deriving DecidableEq, Repr

/-- A freshly constructed worksheet. -/
def Worksheet.new : Worksheet :=
  { cells := [], dirty := false, boundsDirty := true }

/-- `Worksheet.cell`: auto-vivify a missing cell (a fresh `Cell`, not dirty),
marking only the bounds cache. -/
def Worksheet.cell (ws : Worksheet) (row col : Nat) : Cell × Worksheet :=
  let address := addrKey row col
  match mapGet? ws.cells address with
  | some c => (c, ws)
  | none =>
      let c : Cell := { row, col, data := {}, dirty := false }
      (c, { ws with cells := mapSet ws.cells address c, boundsDirty := true })

/-- `Worksheet.getCellIfExists`: plain lookup, never creates. -/
def Worksheet.getCellIfExists (ws : Worksheet) (row col : Nat) : Option Cell :=
  mapGet? ws.cells (addrKey row col)

/-- The `Worksheet.dirty` getter: the sheet flag or any dirty cell. -/
def Worksheet.isDirty (ws : Worksheet) : Bool :=
  ws.dirty || ws.cells.any (fun e => e.2.dirty)

/-- A workbook slice: the shared string table plus one worksheet (the parts
the cell-level operations read and write). -/
structure Book where
  sharedStrings : SharedStrings
  sheet : Worksheet
  deriving DecidableEq, Repr

/-- An empty workbook slice. -/
def Book.new : Book :=
  { sharedStrings := SharedStrings.new, sheet := Worksheet.new }

/-- `ws.cell(row, col).value = val`: vivify, run the value setter, mark the
cell dirty. -/
def Book.setValueAt (bk : Book) (row col : Nat) (val : JSValue) : Book :=
  let r := bk.sheet.cell row col
  let sr := cellValueSet bk.sharedStrings r.1.data val
  let c2 : Cell := { r.1 with data := sr.2, dirty := true }
  { sharedStrings := sr.1, sheet := { r.2 with cells := mapSet r.2.cells (addrKey row col) c2 } }

/-- `ws.cell(row, col).formula = f`: vivify, run the formula setter, mark the
cell dirty. -/
def Book.setFormulaAt (bk : Book) (row col : Nat) (f : Option String) : Book :=
  let r := bk.sheet.cell row col
  let c2 : Cell := { r.1 with data := cellFormulaSet r.1.data f, dirty := true }
  { bk with sheet := { r.2 with cells := mapSet r.2.cells (addrKey row col) c2 } }

/-- Read the formula stored at an address, if any. -/
def Book.formulaAt (bk : Book) (row col : Nat) : Option String :=
  (mapGet? bk.sheet.cells (addrKey row col)).bind (fun c => c.data.f)

/-- Row indices of a normalized range, as naturals. -/
def rangeRows (r : RangeAddress) : List Nat :=
  (List.range (r.end.row.toNat - r.start.row.toNat + 1)).map (r.start.row.toNat + ·)

/-- Column indices of a normalized range, as naturals. -/
def rangeCols (r : RangeAddress) : List Nat :=
  (List.range (r.end.col.toNat - r.start.col.toNat + 1)).map (r.start.col.toNat + ·)

/-- One cell visit of the `Range.values` getter: auto-vivify and read. -/
def rangeValuesColStep (ri : Nat) (acc2 : List JSValue × Book) (ci : Nat) :
    List JSValue × Book :=
  let cr := acc2.2.sheet.cell ri ci
  let v := cellValueGet acc2.2.sharedStrings cr.1.data
  (acc2.1 ++ [v], { acc2.2 with sheet := cr.2 })

/-- One row visit of the `Range.values` getter. -/
def rangeValuesRowStep (cols : List Nat) (acc : List (List JSValue) × Book) (ri : Nat) :
    List (List JSValue) × Book :=
  let rowAcc := cols.foldl (rangeValuesColStep ri) (([] : List JSValue), acc.2)
  (acc.1 ++ [rowAcc.1], rowAcc.2)

/-- The `Range.values` getter: visit every address in bounds through the
auto-vivifying `cell` accessor and collect the values row-major. -/
def rangeValues (bk : Book) (r : RangeAddress) : List (List JSValue) × Book :=
  let rn := normalizeRange r
  (rangeRows rn).foldl (rangeValuesRowStep (rangeCols rn)) (([] : List (List JSValue)), bk)

/-- One cell visit of the non-vivifying read: look up, never create. -/
def rangeNoCreateColStep (ri : Nat) (acc2 : List JSValue × Book) (ci : Nat) :
    List JSValue × Book :=
  let v := match acc2.2.sheet.getCellIfExists ri ci with
    | some c => cellValueGet acc2.2.sharedStrings c.data
    | none => JSValue.null
  (acc2.1 ++ [v], acc2.2)

/-- One row visit of the non-vivifying read. -/
def rangeNoCreateRowStep (cols : List Nat) (acc : List (List JSValue) × Book) (ri : Nat) :
    List (List JSValue) × Book :=
  let rowAcc := cols.foldl (rangeNoCreateColStep ri) (([] : List JSValue), acc.2)
  (acc.1 ++ [rowAcc.1], rowAcc.2)

/-- Modelled from the spec: `Range.getValues({ createMissing: false })` is
referenced by the test suite and the usage docs but its definition is not
among the provided `Range` sources.  Per spec §4.5/§8, the non-vivifying
read visits the same bounds through `getCellIfExists`, yields `null` for
missing cells, and creates no cell entry. -/
def rangeGetValuesNoCreate (bk : Book) (r : RangeAddress) : List (List JSValue) × Book :=
  let rn := normalizeRange r
  (rangeRows rn).foldl (rangeNoCreateRowStep (rangeCols rn)) (([] : List (List JSValue)), bk)

/-! ## Tables (table.ts) -/

/-- Table total functions (`nofn` is the `'none'` literal). -/
inductive TableTotalFunction
  | average | count | countNums | max | min | stdDev | sum | var | nofn
  deriving DecidableEq, Repr

/-- `TOTAL_FUNCTION_NUMBERS`: SUBTOTAL codes in the 101–111
ignore-hidden-rows range. -/
def totalFunctionNumbers : TableTotalFunction → Nat
  | .average => 101
  | .count => 102
  | .countNums => 103
  | .max => 104
  | .min => 105
  | .stdDev => 107
  | .sum => 109
  | .var => 110
  | .nofn => 0

/-- A table column. -/
structure TableColumn where
  id : Nat
  name : String
  colIndex : Nat
  totalFunction : Option TableTotalFunction := none
  deriving DecidableEq, Repr

/-- Resolved table style configuration. -/
structure TableStyleConfig where
  name : String
  showRowStripes : Bool
  showColumnStripes : Bool
  showFirstColumn : Bool
  showLastColumn : Bool
  deriving DecidableEq, Repr

/-- Optional style overrides in a `TableConfig`. -/
structure TableStyleOpts where
  name : Option String := none
  showRowStripes : Option Bool := none
  showColumnStripes : Option Bool := none
  showFirstColumn : Option Bool := none
  showLastColumn : Option Bool := none
  deriving DecidableEq, Repr

/-- `TableConfig`. -/
structure TableConfig where
  name : String
  range : String
  totalRow : Option Bool := none
  style : Option TableStyleOpts := none
  deriving DecidableEq, Repr

/-- Table state. -/
structure Table where
  name : String
  displayName : String
  range : RangeAddress
  totalRow : Bool
  autoFilter : Bool
  style : TableStyleConfig
  columns : List TableColumn
  id : Nat
  dirty : Bool
  deriving DecidableEq, Repr

/-- `String(value)` over cell values, as used for header extraction.  Header
cells in practice hold strings or numbers; the date/error renderings are
stand-ins for JS's locale/object formatting. -/
def jsValueToString : JSValue → String
  | .num x => jsNumToString x
  | .nan => "NaN"
  | .str s => s
  | .bool b => if b then "true" else "false"
  | .date iso => iso
  | .error _ => "[object Object]"
  | .null => "null"

/-- `Table._extractColumns`: read the header row through `getCellIfExists`,
synthesizing `ColumnN` for blank headers. -/
def extractColumns (bk : Book) (range : RangeAddress) : List TableColumn :=
  let headerRow := range.start.row.toNat
  let startCol := range.start.col.toNat
  let endCol := range.end.col.toNat
  (List.range (endCol - startCol + 1)).map (fun k =>
    let col := startCol + k
    let value := (bk.sheet.getCellIfExists headerRow col).map
      (fun c => cellValueGet bk.sharedStrings c.data)
    let name := match value with
      | some JSValue.null => "Column" ++ toString (col - startCol + 1)
      | some v => jsValueToString v
      | none => "Column" ++ toString (col - startCol + 1)
    { id := col - startCol + 1, name := name, colIndex := col })

/-- The `Table` constructor: parse the range, expand by one row when the
total row starts enabled, resolve the style defaults, extract columns.
`none` models the range-parse error. -/
def mkTable (bk : Book) (config : TableConfig) (tableId : Nat) : Option Table := do
  let range0 ← parseRange config.range.data
  let totalRow := config.totalRow = some true
  let range1 :=
    if totalRow then
      { range0 with «end» := { range0.«end» with row := range0.«end».row + 1 } }
    else range0
  let style : TableStyleConfig :=
    { name := ((config.style.bind (·.name)).getD "TableStyleMedium2")
      showRowStripes := (config.style.bind (·.showRowStripes)) ≠ some false
      showColumnStripes := (config.style.bind (·.showColumnStripes)) = some true
      showFirstColumn := (config.style.bind (·.showFirstColumn)) = some true
      showLastColumn := (config.style.bind (·.showLastColumn)) = some true }
  pure
    { name := config.name
      displayName := config.name
      range := range1
      totalRow := totalRow
      autoFilter := true
      style := style
      columns := extractColumns bk range1
      id := tableId
      dirty := true }

/-- Update the first element satisfying a predicate. -/
def updateFirst {α : Type} : List α → (α → Bool) → (α → α) → List α
  | [], _, _ => []
  | a :: rest, p, g => if p a then g a :: rest else a :: updateFirst rest p g

/-- `Table._writeTotalRowFormula`: write the structured-reference SUBTOTAL
formula into the total-row cell under the column. -/
def writeTotalRowFormula (bk : Book) (tbl : Table) (col : TableColumn) : Book :=
  match col.totalFunction with
  | none => bk
  | some fn =>
      if ¬ tbl.totalRow ∨ fn = .nofn then bk
      else
        let totalRowIndex := tbl.range.«end».row.toNat
        let funcNum := totalFunctionNumbers fn
        let formula := "SUBTOTAL(" ++ toString funcNum ++ ",[" ++ col.name ++ "])"
        bk.setFormulaAt totalRowIndex col.colIndex (some formula)

/-- `Table.setTotalFunction`: errors when the total row is disabled or the
column name is unknown; else records the function and writes the formula. -/
def Table.setTotalFunction (tbl : Table) (bk : Book) (columnName : String)
    (fn : TableTotalFunction) : Except String (Table × Book) :=
  if ¬ tbl.totalRow then
    .error "Cannot set total function: table does not have a total row enabled"
  else
    match tbl.columns.find? (fun c => c.name = columnName) with
    | none => .error ("Column not found: " ++ columnName)
    | some col =>
        let col2 : TableColumn := { col with totalFunction := some fn }
        let tbl2 : Table :=
          { tbl with
            columns := updateFirst tbl.columns (fun c => c.name = columnName)
              (fun c => { c with totalFunction := some fn })
            dirty := true }
        .ok (tbl2, writeTotalRowFormula bk tbl2 col2)

/-! ## Workbook directory and save orchestration (types.ts `Workbook`) -/

/-- A `SheetDefinition` from workbook.xml. -/
structure SheetDefinition where
  name : String
  sheetId : Nat
  rId : String
  deriving DecidableEq, Repr

/-- A package relationship. -/
structure Relationship where
  id : String
  relType : String
  target : String
  deriving DecidableEq, Repr

/-- The slice of a `PivotTable` the save orchestration consults. -/
structure PivotTableRef where
  targetSheet : String
  index : Nat
  deriving DecidableEq, Repr

/-- Workbook state: package files, cached worksheets, sheet directory,
relationships, shared strings, styles, the workbook dirty flag and the
pivot inventory. -/
structure Workbook where
  files : List (String × String)
  sheets : List (String × Worksheet)
  sheetDefs : List SheetDefinition
  relationships : List Relationship
  sharedStrings : SharedStrings
  styles : Styles
  dirty : Bool
  pivotCacheCount : Nat
  pivotTables : List PivotTableRef
  deriving DecidableEq, Repr

/-- `Workbook.create()`: a fresh workbook (no sheets) with the dirty flag
set. -/
def Workbook.create : Workbook :=
  { files := [], sheets := [], sheetDefs := [], relationships := []
    sharedStrings := SharedStrings.new, styles := Styles.createDefault
    dirty := true, pivotCacheCount := 0, pivotTables := [] }

/-- The `sheetNames` getter. -/
def Workbook.sheetNames (wb : Workbook) : List String :=
  wb.sheetDefs.map (·.name)

/-- The `sheetCount` getter. -/
def Workbook.sheetCount (wb : Workbook) : Nat :=
  wb.sheetDefs.length

/-- Remove the first occurrence of a pattern from a string
(JS `str.replace(pat, '')` with a string pattern). -/
def removeFirstSub : List Char → List Char → List Char
  | [], _ => []
  | c :: rest, pat =>
      if pat.isPrefixOf (c :: rest) then (c :: rest).drop pat.length
      else c :: removeFirstSub rest pat

/-- `parseInt(s, 10) || 0`: value of the leading digit run, `0` when there
is none (the sign prefix is not modelled; relationship ids never carry one). -/
def jsParseIntOr0 (s : String) : Nat :=
  parseDigits (s.data.takeWhile isAsciiDigit)

/-- The numeric part of a relationship id:
`parseInt(r.id.replace('rId', ''), 10) || 0`. -/
def relIdNum (id : String) : Nat :=
  jsParseIntOr0 (String.mk (removeFirstSub id.data "rId".data))

/-- Insert at an index (`Array.splice(i, 0, x)`). -/
def insertAt {α : Type} (l : List α) (i : Nat) (a : α) : List α :=
  l.take i ++ [a] ++ l.drop i

/-- Remove the first entry satisfying a predicate. -/
def removeFirstP {α : Type} : List α → (α → Bool) → List α
  | [], _ => []
  | a :: rest, p => if p a then rest else a :: removeFirstP rest p

/-- `Map.delete`. -/
def mapDelete {α β : Type} [DecidableEq α] : List (α × β) → α → List (α × β)
  | [], _ => []
  | e :: rest, k => if e.1 = k then rest else e :: mapDelete rest k

/-- `Workbook.addSheet`: reject duplicate names; allocate the sheet id and
relationship id as max-of-existing plus one; record the relationship, the
definition (at `index` when in range) and a fresh cached worksheet. -/
def Workbook.addSheet (wb : Workbook) (name : String) (index : Option Nat := none) :
    Except String Workbook :=
  if wb.sheetDefs.any (fun s => s.name = name) then
    .error ("Sheet already exists: " ++ name)
  else
    let sheetId := ((wb.sheetDefs.map (·.sheetId)).foldl max 0) + 1
    let rNum := ((wb.relationships.map (fun r => relIdNum r.id)).foldl max 0) + 1
    let rId := "rId" ++ toString rNum
    let def1 : SheetDefinition := { name := name, sheetId := sheetId, rId := rId }
    let rels := wb.relationships ++
      [{ id := rId
         relType := "http://schemas.openxmlformats.org/officeDocument/2006/relationships/worksheet"
         target := "worksheets/sheet" ++ toString sheetId ++ ".xml" }]
    let defs := match index with
      | some i => if i < wb.sheetDefs.length then insertAt wb.sheetDefs i def1
                  else wb.sheetDefs ++ [def1]
      | none => wb.sheetDefs ++ [def1]
    .ok { wb with
          dirty := true
          sheetDefs := defs
          relationships := rels
          sheets := mapSet wb.sheets name Worksheet.new }

/-- `Workbook.deleteSheet` (by name or index): unknown sheet and
last-remaining-sheet are errors; else drop the definition, the cached
worksheet and the relationship. -/
def Workbook.deleteSheet (wb : Workbook) (nameOrIndex : Sum Nat String) :
    Except String Workbook :=
  let index : Int := match nameOrIndex with
    | .inl i => (i : Int)
    | .inr name =>
        match firstIdxP? wb.sheetDefs (fun s => s.name = name) with
        | some i => (i : Int)
        | none => -1
  let shown := match nameOrIndex with
    | .inl i => toString i
    | .inr name => name
  if index < 0 ∨ (wb.sheetDefs.length : Int) ≤ index then
    .error ("Sheet not found: " ++ shown)
  else if wb.sheetDefs.length = 1 then
    .error "Cannot delete the last sheet"
  else
    match wb.sheetDefs.get? index.toNat with
    | none => .error ("Sheet not found: " ++ shown)
    | some def1 =>
        .ok { wb with
              dirty := true
              sheetDefs := wb.sheetDefs.eraseIdx index.toNat
              sheets := mapDelete wb.sheets def1.name
              relationships := removeFirstP wb.relationships (fun r => r.id = def1.rId) }

/-! ### Save orchestration (`_updateFiles`)

The claim at stake is which package parts are (re)written; the XML bodies
are abbreviated stand-ins for the serializers (`toXml` of each component),
which always produce fresh markup for the current state. -/

/-- Stand-in for `SharedStrings.toXml`. -/
def sharedStringsToXml (ss : SharedStrings) : String :=
  "<sst count=\"" ++ toString ss.totalCount ++ "\" uniqueCount=\"" ++ toString ss.count ++ "\"/>"

/-- Stand-in for `Styles.toXml`. -/
def stylesToXml (st : Styles) : String :=
  "<styleSheet numFmts=\"" ++ toString st.numFmts.length ++ "\" cellXfs=\"" ++
    toString st.cellXfs.length ++ "\"/>"

/-- Stand-in for `Worksheet.toXml`. -/
def worksheetToXml (ws : Worksheet) : String :=
  "<worksheet cells=\"" ++ toString ws.cells.length ++ "\"/>"

/-- Stand-in for `_updateWorkbookXml`. -/
def workbookXmlOf (wb : Workbook) : String :=
  "<workbook sheets=\"" ++ toString wb.sheetDefs.length ++ "\"/>"

/-- Stand-in for `_updateRelationshipsXml`. -/
def relationshipsXmlOf (wb : Workbook) : String :=
  "<Relationships count=\"" ++ toString wb.relationships.length ++ "\"/>"

/-- Stand-in for `_updateContentTypes`. -/
def contentTypesXmlOf (wb : Workbook) : String :=
  "<Types overrides=\"" ++
    toString (wb.sheetDefs.length + wb.pivotCacheCount + wb.pivotTables.length) ++ "\"/>"

/-- Stand-in for the generated root relationships part. -/
def rootRelsXml : String :=
  "<Relationships root=\"workbook\"/>"

/-- The unconditional writes at the head of `_updateFiles`: workbook.xml,
the workbook relationships and the content-types manifest; `_rels/.rels` is
added only when absent (or read back falsy). -/
def baseWrites (wb : Workbook) : List (String × String) :=
  [("xl/workbook.xml", workbookXmlOf wb),
   ("xl/_rels/workbook.xml.rels", relationshipsXmlOf wb),
   ("[Content_Types].xml", contentTypesXmlOf wb)] ++
  (if jsFalsyStr (mapGet? wb.files "_rels/.rels") then [("_rels/.rels", rootRelsXml)] else [])

/-- The shared-strings write: performed when the table is dirty or
non-empty. -/
def sharedWrites (wb : Workbook) : List (String × String) :=
  if wb.sharedStrings.dirty || decide (0 < wb.sharedStrings.count) then
    [("xl/sharedStrings.xml", sharedStringsToXml wb.sharedStrings)]
  else []

/-- The styles write: performed when the style table is dirty, the workbook
is dirty, or the part does not exist yet. -/
def stylesWrites (wb : Workbook) : List (String × String) :=
  if wb.styles.dirty || wb.dirty || (mapGet? wb.files "xl/styles.xml").isNone then
    [("xl/styles.xml", stylesToXml wb.styles)]
  else []

/-- Resolve a cached sheet name to its part target through its definition
and relationship. -/
def resolveSheetTarget (wb : Workbook) (name : String) : Option String :=
  (wb.sheetDefs.find? (fun d => d.name = name)).bind (fun d =>
    (wb.relationships.find? (fun r => r.id = d.rId)).map (fun r => r.target))

/-- The per-worksheet writes: each cached sheet that is dirty (or when the
whole workbook is dirty) whose definition and relationship resolve. -/
def sheetWrites (wb : Workbook) : List (String × String) :=
  wb.sheets.flatMap (fun e =>
    if e.2.isDirty || wb.dirty then
      match resolveSheetTarget wb e.1 with
      | some t => [("xl/" ++ t, worksheetToXml e.2)]
      | none => []
    else [])

/-- Pivot cache definition/records/rels files (content abstracted). -/
def pivotCacheWrites (wb : Workbook) : List (String × String) :=
  (List.range wb.pivotCacheCount).flatMap (fun i =>
    let idx := i + 1
    [("xl/pivotCache/pivotCacheDefinition" ++ (toString idx ++ ".xml"), "<pivotCacheDefinition/>"),
     ("xl/pivotCache/pivotCacheRecords" ++ (toString idx ++ ".xml"), "<pivotCacheRecords/>"),
     ("xl/pivotCache/_rels/pivotCacheDefinition" ++ (toString idx ++ ".xml.rels"),
        "<Relationships records=\"1\"/>")])

/-- Pivot table definition/rels files (content abstracted). -/
def pivotTableWrites (wb : Workbook) : List (String × String) :=
  (List.range wb.pivotTables.length).flatMap (fun i =>
    let idx := i + 1
    [("xl/pivotTables/pivotTable" ++ (toString idx ++ ".xml"), "<pivotTableDefinition/>"),
     ("xl/pivotTables/_rels/pivotTable" ++ (toString idx ++ ".xml.rels"),
        "<Relationships cache=\"1\"/>")])

/-- Group pivot tables by target sheet, first-seen order. -/
def groupByTargetSheet (pts : List PivotTableRef) : List (String × List PivotTableRef) :=
  pts.foldl (fun acc pt =>
    match mapGet? acc pt.targetSheet with
    | some l => mapSet acc pt.targetSheet (l ++ [pt])
    | none => acc ++ [(pt.targetSheet, [pt])]) []

/-- `target.split('/').pop()`. -/
def lastPathComp (t : String) : String :=
  String.mk ((splitOnChar '/' t.data).getLastD [])

/-- The worksheet-to-pivot-table relationship files. -/
def sheetPivotRelsWrites (wb : Workbook) : List (String × String) :=
  (groupByTargetSheet wb.pivotTables).flatMap (fun g =>
    match resolveSheetTarget wb g.1 with
    | some t =>
        [("xl/worksheets/_rels/" ++ (lastPathComp t ++ ".rels"),
          "<Relationships pivotTables=\"" ++ toString g.2.length ++ "\"/>")]
    | none => [])

/-- `_updatePivotTableFiles`, performed only when pivot tables exist. -/
def pivotWrites (wb : Workbook) : List (String × String) :=
  if 0 < wb.pivotTables.length then
    pivotCacheWrites wb ++ pivotTableWrites wb ++ sheetPivotRelsWrites wb
  else []

/-- The full write sequence of `_updateFiles`, in program order. -/
def updateWrites (wb : Workbook) : List (String × String) :=
  baseWrites wb ++ sharedWrites wb ++ stylesWrites wb ++ sheetWrites wb ++ pivotWrites wb

/-- Apply a write sequence to the package file map (`writeZipText` calls). -/
def applyWrites (files : List (String × String)) (ws : List (String × String)) :
    List (String × String) :=
  ws.foldl (fun m e => mapSet m e.1 e.2) files

/-- `Workbook._updateFiles`: the package file map after the save
orchestration ran. -/
def Workbook.updateFiles (wb : Workbook) : List (String × String) :=
  applyWrites wb.files (updateWrites wb)

/-! ## Well-formedness invariants of the deduplicating tables -/

/-- Invariant of the shared string table: entries are pairwise distinct and
the `stringToIndex` map misses exactly the unseen strings.  Holds for a
fresh table and is preserved by `addString`. -/
def SharedStringsWF (ss : SharedStrings) : Prop :=
  ss.entries.Nodup ∧ ∀ x : String, (mapGet? ss.stringToIndex x = none ↔ x ∉ ss.entries)

/-- Invariant of the style cache: cached indices point below the `cellXfs`
length, and both keys and indices are pairwise distinct. -/
def StylesWF (st : Styles) : Prop :=
  (∀ e ∈ st.styleCache, e.2 < st.cellXfs.length) ∧
  (st.styleCache.map Prod.fst).Nodup ∧
  (st.styleCache.map Prod.snd).Nodup

/-- Invariant of the custom number-format registry: the next id and all
assigned ids sit at or above 164, assigned ids sit below the next id, and
both codes and ids are pairwise distinct. -/
def NumFmtWF (st : NumFmtRegistry) : Prop :=
  164 ≤ st.nextId ∧
  (∀ e ∈ st.custom, 164 ≤ e.2 ∧ e.2 < st.nextId) ∧
  (st.custom.map Prod.fst).Nodup ∧
  (st.custom.map Prod.snd).Nodup

/-! ## Helpers and concrete scenario states used by the theorems -/

/-- The payload of an `ok` result. -/
def exceptOk? {e a : Type} : Except e a → Option a
  | .ok x => some x
  | .error _ => none

/-- The payload of an `error` result (a thrown message). -/
def exceptErr? {e a : Type} : Except e a → Option e
  | .error x => some x
  | .ok _ => none

/-- The parsed range `A1:C3`. -/
def rangeA1C3 : RangeAddress :=
  (parseRange "A1:C3".data).getD { start := { row := 0, col := 0 }, «end» := { row := 0, col := 0 } }

/-- The worksheet with headers `Region`, `Product`, `Sales`, `Qty` in
`A1:D1`. -/
def book8 : Book :=
  (((Book.new.setValueAt 0 0 (JSValue.str "Region")).setValueAt 0 1
        (JSValue.str "Product")).setValueAt 0 2
      (JSValue.str "Sales")).setValueAt 0 3 (JSValue.str "Qty")

/-- Fallback table value for extracting `Option Table`. -/
def fallbackTable : Table :=
  { name := "", displayName := "",
    range := { start := { row := 0, col := 0 }, «end» := { row := 0, col := 0 } },
    totalRow := false, autoFilter := false,
    style := { name := "", showRowStripes := false, showColumnStripes := false,
               showFirstColumn := false, showLastColumn := false },
    columns := [], id := 0, dirty := false }

/-- The table over `A1:D6` with a total row. -/
def table8 : Table :=
  (mkTable book8 { name := "SalesTable", range := "A1:D6", totalRow := some true } 1).getD
    fallbackTable

/-- The same table without a total row. -/
def table8NoTotal : Table :=
  (mkTable book8 { name := "SalesTable2", range := "A1:D6" } 2).getD fallbackTable

/-- A workbook as after loading a package with one shared string and a
style part, with nothing modified: the shared string table is not dirty
but non-empty (exactly what `SharedStrings.parse` produces), the styles are
clean, the workbook flag is clear. -/
def wb4 : Workbook :=
  { files := [("xl/sharedStrings.xml", "ORIGINAL-SST"),
              ("xl/styles.xml", "ORIGINAL-STYLES"),
              ("_rels/.rels", "ORIGINAL-RELS")]
    sheets := [], sheetDefs := [], relationships := []
    sharedStrings := { entries := ["hello"], stringToIndex := [("hello", 0)],
                       totalUsage := 1, dirty := false }
    styles := Styles.createDefault
    dirty := false, pivotCacheCount := 0, pivotTables := [] }

/-- A dirty cached worksheet (sheet-level flag set). -/
def ws5 : Worksheet :=
  { cells := [], dirty := true, boundsDirty := true }

/-- A loaded workbook with one cached dirty sheet `S` resolving to
`worksheets/sheet1.xml`, an empty clean shared string table, clean styles
with the part present, and the workbook flag clear. -/
def wb5 : Workbook :=
  { files := [("xl/sharedStrings.xml", "OLD-SST"),
              ("xl/styles.xml", "OLD-STYLES"),
              ("xl/worksheets/sheet1.xml", "OLD-SHEET"),
              ("_rels/.rels", "OLD-RELS")]
    sheets := [("S", ws5)]
    sheetDefs := [{ name := "S", sheetId := 1, rId := "rId1" }]
    relationships := [{ id := "rId1"
                        relType := "http://schemas.openxmlformats.org/officeDocument/2006/relationships/worksheet"
                        target := "worksheets/sheet1.xml" }]
    sharedStrings := SharedStrings.new
    styles := Styles.createDefault
    dirty := false, pivotCacheCount := 0, pivotTables := [] }

/-! ## Association-map lemmas -/

theorem mapGet?_mapSet_self {α β : Type} [DecidableEq α] (m : List (α × β)) (k : α) (v : β) :
    mapGet? (mapSet m k v) k = some v := by
  induction m with
  | nil => simp [mapGet?, mapSet]
  | cons e rest ih =>
      obtain ⟨a, b⟩ := e
      by_cases h : a = k
      · simp [mapSet, mapGet?, h]
      · simp [mapSet, mapGet?, h, ih]

theorem mapGet?_mapSet_ne {α β : Type} [DecidableEq α] (m : List (α × β)) (k k2 : α) (v : β)
    (h : k2 ≠ k) : mapGet? (mapSet m k v) k2 = mapGet? m k2 := by
  have hk : ¬ (k = k2) := fun he => h he.symm
  induction m with
  | nil => simp [mapGet?, mapSet, hk]
  | cons e rest ih =>
      obtain ⟨a, b⟩ := e
      by_cases he : a = k
      · have h3 : ¬ (a = k2) := by rw [he]; exact hk
        simp [mapSet, mapGet?, he, hk, h3]
      · by_cases he2 : a = k2
        · subst he2
          simp [mapSet, mapGet?, he, hk, h]
        · simp [mapSet, mapGet?, he, he2, ih]

theorem mapSet_of_get_none {α β : Type} [DecidableEq α] (m : List (α × β)) (k : α) (v : β)
    (h : mapGet? m k = none) : mapSet m k v = m ++ [(k, v)] := by
  induction m with
  | nil => simp [mapSet]
  | cons e rest ih =>
      obtain ⟨a, b⟩ := e
      by_cases he : a = k
      · simp [mapGet?, he] at h
      · simp only [mapGet?, if_neg he] at h
        simp [mapSet, he, ih h]

theorem mapGet?_none_iff {α β : Type} [DecidableEq α] (m : List (α × β)) (k : α) :
    mapGet? m k = none ↔ k ∉ m.map Prod.fst := by
  induction m with
  | nil => simp [mapGet?]
  | cons e rest ih =>
      obtain ⟨a, b⟩ := e
      by_cases he : a = k
      · simp [mapGet?, he]
      · simp only [mapGet?, if_neg he, List.map_cons, List.mem_cons]
        rw [ih]
        constructor
        · intro h1 h2
          rcases h2 with h2 | h2
          · exact he h2.symm
          · exact h1 h2
        · intro h1 h2
          exact h1 (Or.inr h2)

theorem mapGet?_mem {α β : Type} [DecidableEq α] {m : List (α × β)} {k : α} {v : β}
    (h : mapGet? m k = some v) : (k, v) ∈ m := by
  induction m with
  | nil => simp [mapGet?] at h
  | cons e rest ih =>
      obtain ⟨a, b⟩ := e
      by_cases he : a = k
      · simp only [mapGet?, if_pos he] at h
        cases h
        subst he
        exact List.mem_cons_self _ _
      · simp only [mapGet?, if_neg he] at h
        exact List.mem_cons_of_mem _ (ih h)

theorem mapGet?_append_of_none {α β : Type} [DecidableEq α] (m1 m2 : List (α × β)) (k : α)
    (h : mapGet? m1 k = none) : mapGet? (m1 ++ m2) k = mapGet? m2 k := by
  induction m1 with
  | nil => simp
  | cons e rest ih =>
      obtain ⟨a, b⟩ := e
      by_cases he : a = k
      · simp [mapGet?, he] at h
      · simp only [mapGet?, if_neg he] at h
        simp [mapGet?, he, ih h]

/-! ## C6: date serial round trip -/

/-- C6: for every calendar instant (any UTC millisecond timestamp, in
particular every real calendar date), converting with `Cell._jsDateToExcel`
and back with `Cell._excelDateToJs` returns the original date exactly; the
+1 compensation above serial 60 (the fictitious Feb 29 1900) is undone on
the way back. -/
theorem claim6_date_roundtrip (t : Int) : excelDateToJs (jsDateToExcel t) = t := by
  simp only [jsDateToExcel, excelDateToJs]
  have hms : ((msPerDay : Int) : ℚ) ≠ 0 := by norm_num [msPerDay]
  set q : ℚ := (((t : Int) : ℚ) - ((excelEpochMs : Int) : ℚ)) / ((msPerDay : Int) : ℚ) with hq
  have hkey : q * ((msPerDay : Int) : ℚ) = ((t - excelEpochMs : Int) : ℚ) := by
    rw [hq, div_mul_cancel₀ _ hms]
    push_cast
    ring
  by_cases h : (60 : ℚ) < q + 1
  · rw [if_pos h]
    have h2 : (60 : ℚ) < q + 1 + 1 := by linarith
    rw [if_pos h2]
    have h3 : (q + 1 + 1 - 1 - 1) * ((msPerDay : Int) : ℚ) = ((t - excelEpochMs : Int) : ℚ) := by
      rw [← hkey]; ring
    rw [h3, round_intCast]
    omega
  · rw [if_neg h, if_neg h]
    have h3 : (q + 1 - 1) * ((msPerDay : Int) : ℚ) = ((t - excelEpochMs : Int) : ℚ) := by
      rw [← hkey]; ring
    rw [h3, round_intCast]
    omega

/-! ## C9: workbook lifecycle scenario -/

/-- C9: `Workbook.create()` yields zero sheets; `addSheet('S')` then yields
one sheet named `S`; deleting `S` as the single remaining sheet throws
"Cannot delete the last sheet". -/
theorem claim9_workbook_lifecycle :
    Workbook.sheetCount Workbook.create = 0 ∧
    exceptOk? ((Workbook.create.addSheet "S").map Workbook.sheetCount) = some 1 ∧
    exceptOk? ((Workbook.create.addSheet "S").map Workbook.sheetNames) = some ["S"] ∧
    exceptErr? ((Workbook.create.addSheet "S").bind (fun wb => wb.deleteSheet (Sum.inr "S"))) =
      some "Cannot delete the last sheet" := by
  decide

/-! ## C2: non-vivifying range read on an empty sheet -/

/-- C2: on an empty worksheet, the non-vivifying read of `A1:C3` returns a
3×3 array of nulls and leaves the workbook state — in particular the sparse
cell map — unchanged. -/
theorem claim2_nonvivifying_read :
    rangeGetValuesNoCreate Book.new rangeA1C3 =
      ([[JSValue.null, JSValue.null, JSValue.null],
        [JSValue.null, JSValue.null, JSValue.null],
        [JSValue.null, JSValue.null, JSValue.null]], Book.new) ∧
    (rangeGetValuesNoCreate Book.new rangeA1C3).2.sheet.cells.length =
      Book.new.sheet.cells.length := by
  decide

/-! ## C8: table total-row SUBTOTAL formula -/

/-- C8: `setTotalFunction('Sales', 'sum')` on a total-row table over `A1:D6`
whose third column header is `Sales` writes `SUBTOTAL(109,[Sales])` into the
cell at row 6, column 2 — address `C7`; it errors when the total row is
disabled or the column name is unknown. -/
theorem claim8_total_function :
    exceptOk? ((table8.setTotalFunction book8 "Sales" TableTotalFunction.sum).map
        (fun r => Book.formulaAt r.2 6 2)) = some (some "SUBTOTAL(109,[Sales])") ∧
    addrKey 6 2 = "C7" ∧
    exceptErr? (table8NoTotal.setTotalFunction book8 "Sales" TableTotalFunction.sum) =
      some "Cannot set total function: table does not have a total row enabled" ∧
    exceptErr? (table8.setTotalFunction book8 "Nope" TableTotalFunction.sum) =
      some "Column not found: Nope" := by
  decide

/-! ## C3: shared-string dedup law -/

theorem sharedStringsWF_new : SharedStringsWF SharedStrings.new := by
  constructor
  · simp [SharedStrings.new]
  · intro x
    simp [SharedStrings.new, mapGet?]

theorem addString_step (st : SharedStrings) (s : String) (h : SharedStringsWF st) :
    SharedStringsWF (st.addString s).2 ∧
    (st.addString s).2.totalUsage = st.totalUsage + 1 ∧
    (st.addString s).2.entries.toFinset = insert s st.entries.toFinset := by
  obtain ⟨hnd, hiff⟩ := h
  cases hget : mapGet? st.stringToIndex s with
  | some i =>
      have hmem : s ∈ st.entries := by
        by_contra hnot
        rw [← hiff s] at hnot
        rw [hget] at hnot
        exact Option.noConfusion hnot
      refine ⟨⟨?_, ?_⟩, ?_, ?_⟩ <;>
        simp [SharedStrings.addString, hget, hnd, hiff, Finset.insert_eq_self.mpr,
          List.mem_toFinset, hmem]
  | none =>
      have hnot : s ∉ st.entries := (hiff s).mp hget
      have hset : mapSet st.stringToIndex s st.entries.length =
          st.stringToIndex ++ [(s, st.entries.length)] :=
        mapSet_of_get_none _ _ _ hget
      refine ⟨⟨?_, ?_⟩, ?_, ?_⟩
      · simp only [SharedStrings.addString, hget]
        rw [List.nodup_append]
        exact ⟨hnd, List.nodup_singleton s, by simpa using fun hx => hnot hx⟩
      · intro x
        simp only [SharedStrings.addString, hget]
        by_cases hx : x = s
        · subst hx
          rw [mapGet?_mapSet_self]
          simp
        · rw [mapGet?_mapSet_ne _ _ _ _ hx]
          rw [hiff x]
          simp [hx]
      · simp [SharedStrings.addString, hget]
      · simp only [SharedStrings.addString, hget]
        simp [List.toFinset_append, Finset.union_comm, Finset.insert_eq]

theorem addAll_spec (ss : List String) : ∀ st : SharedStrings, SharedStringsWF st →
    SharedStringsWF (st.addAll ss) ∧
    (st.addAll ss).totalUsage = st.totalUsage + ss.length ∧
    (st.addAll ss).entries.toFinset = st.entries.toFinset ∪ ss.toFinset := by
  induction ss with
  | nil => intro st h; simpa [SharedStrings.addAll] using h
  | cons s rest ih =>
      intro st h
      obtain ⟨hwf1, hu1, hf1⟩ := addString_step st s h
      obtain ⟨hwf2, hu2, hf2⟩ := ih (st.addString s).2 hwf1
      have hall : st.addAll (s :: rest) = (st.addString s).2.addAll rest := by
        simp [SharedStrings.addAll]
      refine ⟨by rw [hall]; exact hwf2, ?_, ?_⟩
      · rw [hall, hu2, hu1]
        simp [Nat.add_assoc, Nat.add_comm 1 rest.length]
      · rw [hall, hf2, hf1]
        ext x
        simp only [Finset.mem_union, Finset.mem_insert, List.mem_toFinset, List.mem_cons]
        tauto

/-- C3: over any call sequence on a fresh shared string table, the
total-usage count afterwards equals the number of calls and the
unique-entry count equals the number of distinct strings; a repeated
`addString` with an equal string returns the index of the first call, and a
string missing from the lookup map is assigned the next (fresh) index. -/
theorem claim3_shared_string_dedup (ss : List String) :
    (SharedStrings.new.addAll ss).totalCount = ss.length ∧
    (SharedStrings.new.addAll ss).count = ss.dedup.length ∧
    (∀ (st : SharedStrings) (s : String),
        ((st.addString s).2.addString s).1 = (st.addString s).1) ∧
    (∀ (st : SharedStrings) (s : String), mapGet? st.stringToIndex s = none →
        (st.addString s).1 = st.entries.length) := by
  obtain ⟨⟨hnd, _⟩, hu, hf⟩ := addAll_spec ss SharedStrings.new sharedStringsWF_new
  have hent : (SharedStrings.new.addAll ss).entries.toFinset = ss.toFinset := by
    rw [hf]; simp [SharedStrings.new]
  have hcard : (SharedStrings.new.addAll ss).entries.length = ss.dedup.length := by
    rw [← List.toFinset_card_of_nodup hnd, hent, List.card_toFinset]
  refine ⟨?_, ?_, ?_, ?_⟩
  · have hle : (SharedStrings.new.addAll ss).entries.length ≤ ss.length := by
      rw [hcard]
      exact List.Sublist.length_le (List.dedup_sublist ss)
    have hu2 : (SharedStrings.new.addAll ss).totalUsage = ss.length := by
      rw [hu]
      simp [SharedStrings.new]
    simp only [SharedStrings.totalCount]
    omega
  · simpa [SharedStrings.count] using hcard
  · intro st s
    cases hget : mapGet? st.stringToIndex s with
    | some i => simp [SharedStrings.addString, hget]
    | none => simp [SharedStrings.addString, hget, mapGet?_mapSet_self]
  · intro st s hget
    simp [SharedStrings.addString, hget]

/-- Witness for C3 at the call sequence `["a", "b", "a"]` (3 calls, 2
distinct strings) and the concrete repeat/fresh lookups. -/
theorem claim3_shared_string_dedup_witness :
    (SharedStrings.new.addAll ["a", "b", "a"]).totalCount = 3 ∧
    (SharedStrings.new.addAll ["a", "b", "a"]).count = 2 ∧
    ((SharedStrings.new.addString "a").2.addString "a").1 = (SharedStrings.new.addString "a").1 ∧
    (SharedStrings.new.addString "a").1 = SharedStrings.new.entries.length := by
  refine ⟨(claim3_shared_string_dedup ["a", "b", "a"]).1, ?_, ?_, ?_⟩
  · exact (claim3_shared_string_dedup ["a", "b", "a"]).2.1
  · exact (claim3_shared_string_dedup []).2.2.1 SharedStrings.new "a"
  · exact (claim3_shared_string_dedup []).2.2.2 SharedStrings.new "a" (by decide)

/-! ## C7: style content-addressing -/

theorem map_snd_nodup_key_eq {α β : Type} {m : List (α × β)}
    (h : (m.map Prod.snd).Nodup) {k1 k2 : α} {v : β}
    (h1 : (k1, v) ∈ m) (h2 : (k2, v) ∈ m) : k1 = k2 := by
  have := List.inj_on_of_nodup_map h h1 h2 rfl
  exact congrArg Prod.fst this

theorem createStyle_hit {st : Styles} {s : CellStyle} {i : Nat}
    (h : mapGet? st.styleCache s = some i) : st.createStyle s = (i, st) := by
  simp [Styles.createStyle, h]

theorem createStyle_miss_fst {st : Styles} {s : CellStyle}
    (h : mapGet? st.styleCache s = none) : (st.createStyle s).1 = st.cellXfs.length := by
  simp [Styles.createStyle, h]

theorem createStyle_miss_cache {st : Styles} {s : CellStyle}
    (h : mapGet? st.styleCache s = none) :
    (st.createStyle s).2.styleCache = mapSet st.styleCache s st.cellXfs.length := by
  simp [Styles.createStyle, h]

theorem createStyle_miss_len {st : Styles} {s : CellStyle}
    (h : mapGet? st.styleCache s = none) :
    (st.createStyle s).2.cellXfs.length = st.cellXfs.length + 1 := by
  simp [Styles.createStyle, h]

/-- C7: from any well-formed style table, `createStyle` called twice with
structurally equal styles returns the same index both times, and a second
call with a structurally different style returns a different index. -/
theorem claim7_style_content_addressing (st : Styles) (hwf : StylesWF st) :
    (∀ s : CellStyle, ((st.createStyle s).2.createStyle s).1 = (st.createStyle s).1) ∧
    (∀ s1 s2 : CellStyle, s1 ≠ s2 →
        ((st.createStyle s1).2.createStyle s2).1 ≠ (st.createStyle s1).1) := by
  obtain ⟨hbound, _hkeys, hvals⟩ := hwf
  constructor
  · intro s
    cases hget : mapGet? st.styleCache s with
    | some i => rw [createStyle_hit hget, createStyle_hit hget]
    | none =>
        have h2 : mapGet? (st.createStyle s).2.styleCache s = some st.cellXfs.length := by
          rw [createStyle_miss_cache hget]
          exact mapGet?_mapSet_self _ _ _
        rw [createStyle_hit h2, createStyle_miss_fst hget]
  · intro s1 s2 hne
    cases hget1 : mapGet? st.styleCache s1 with
    | some i1 =>
        rw [createStyle_hit hget1]
        have hmem1 : (s1, i1) ∈ st.styleCache := mapGet?_mem hget1
        cases hget2 : mapGet? st.styleCache s2 with
        | some i2 =>
            rw [createStyle_hit hget2]
            intro heq
            simp only at heq
            subst heq
            exact hne (map_snd_nodup_key_eq hvals hmem1 (mapGet?_mem hget2))
        | none =>
            rw [createStyle_miss_fst hget2]
            have := hbound _ hmem1
            simp only
            omega
    | none =>
        rw [createStyle_miss_fst hget1]
        have hc1 : (st.createStyle s1).2.styleCache =
            st.styleCache ++ [(s1, st.cellXfs.length)] := by
          rw [createStyle_miss_cache hget1, mapSet_of_get_none _ _ _ hget1]
        cases hget2 : mapGet? (st.createStyle s1).2.styleCache s2 with
        | some i2 =>
            rw [createStyle_hit hget2]
            have hmem2 : (s2, i2) ∈ (st.createStyle s1).2.styleCache := mapGet?_mem hget2
            rw [hc1] at hmem2
            rcases List.mem_append.mp hmem2 with hin | hin
            · have := hbound _ hin
              simp only
              omega
            · simp only [List.mem_singleton, Prod.mk.injEq] at hin
              exact absurd hin.1.symm hne
        | none =>
            rw [createStyle_miss_fst hget2, createStyle_miss_len hget1]
            omega

/-- Witness for C7 at the default style table with the empty style and a
bold style. -/
theorem claim7_style_content_addressing_witness :
    ((Styles.createDefault.createStyle {}).2.createStyle {}).1 =
      (Styles.createDefault.createStyle {}).1 ∧
    ((Styles.createDefault.createStyle {}).2.createStyle { bold := some true }).1 ≠
      (Styles.createDefault.createStyle {}).1 := by
  have h := claim7_style_content_addressing Styles.createDefault
    (by refine ⟨?_, ?_, ?_⟩ <;> simp [Styles.createDefault])
  exact ⟨h.1 {}, h.2 {} { bold := some true } (by decide)⟩

/-! ## C1: number-format id lookup -/

theorem getOrCreate_builtin {st : NumFmtRegistry} {code : String} {i : Nat}
    (h : mapGet? builtinNumFmts code = some i) : getOrCreateNumFmtId st code = (i, st) := by
  simp [getOrCreateNumFmtId, h]

theorem getOrCreate_custom_hit {st : NumFmtRegistry} {code : String} {i : Nat}
    (hb : mapGet? builtinNumFmts code = none) (hc : mapGet? st.custom code = some i) :
    getOrCreateNumFmtId st code = (i, st) := by
  simp [getOrCreateNumFmtId, hb, hc]

theorem getOrCreate_custom_miss {st : NumFmtRegistry} {code : String}
    (hb : mapGet? builtinNumFmts code = none) (hc : mapGet? st.custom code = none) :
    getOrCreateNumFmtId st code =
      (st.nextId, { custom := mapSet st.custom code st.nextId, nextId := st.nextId + 1 }) := by
  simp [getOrCreateNumFmtId, hb, hc]

/-- C1: built-in codes map to their reserved ids (`General` to 0, `0.00` to
2, `#,##0.00` to 4) from any registry state; over well-formed states every
non-built-in code gets an id at least 164 that exceeds all previously
assigned custom ids, the very first custom code on a fresh registry gets
exactly 164, looking the same code up twice returns the same id, and two
different custom codes get different ids. -/
theorem claim1_numfmt_id_lookup :
    (∀ st : NumFmtRegistry, (getOrCreateNumFmtId st "General").1 = 0 ∧
        (getOrCreateNumFmtId st "0.00").1 = 2 ∧
        (getOrCreateNumFmtId st "#,##0.00").1 = 4) ∧
    (∀ (st : NumFmtRegistry) (code : String), NumFmtWF st →
        mapGet? builtinNumFmts code = none →
        164 ≤ (getOrCreateNumFmtId st code).1 ∧
        (mapGet? st.custom code = none →
          ∀ e ∈ st.custom, e.2 < (getOrCreateNumFmtId st code).1)) ∧
    (∀ code : String, mapGet? builtinNumFmts code = none →
        (getOrCreateNumFmtId NumFmtRegistry.new code).1 = 164) ∧
    (∀ (st : NumFmtRegistry) (code : String),
        (getOrCreateNumFmtId (getOrCreateNumFmtId st code).2 code).1 =
          (getOrCreateNumFmtId st code).1) ∧
    (∀ (st : NumFmtRegistry) (c1 c2 : String), NumFmtWF st →
        mapGet? builtinNumFmts c1 = none → mapGet? builtinNumFmts c2 = none → c1 ≠ c2 →
        (getOrCreateNumFmtId (getOrCreateNumFmtId st c1).2 c2).1 ≠
          (getOrCreateNumFmtId st c1).1) := by
  refine ⟨fun st => ⟨rfl, rfl, rfl⟩, ?_, ?_, ?_, ?_⟩
  · intro st code hwf hb
    obtain ⟨hnext, hbound, _, _⟩ := hwf
    cases hc : mapGet? st.custom code with
    | some i =>
        rw [getOrCreate_custom_hit hb hc]
        have := hbound _ (mapGet?_mem hc)
        refine ⟨this.1, fun hnone => ?_⟩
        exact Option.noConfusion hnone
    | none =>
        rw [getOrCreate_custom_miss hb hc]
        exact ⟨hnext, fun _ e he => (hbound e he).2⟩
  · intro code hb
    rw [getOrCreate_custom_miss hb (by simp [NumFmtRegistry.new, mapGet?])]
    rfl
  · intro st code
    cases hb : mapGet? builtinNumFmts code with
    | some i => rw [getOrCreate_builtin hb, getOrCreate_builtin hb]
    | none =>
        cases hc : mapGet? st.custom code with
        | some i => rw [getOrCreate_custom_hit hb hc, getOrCreate_custom_hit hb hc]
        | none =>
            rw [getOrCreate_custom_miss hb hc]
            have h2 : mapGet? (mapSet st.custom code st.nextId) code = some st.nextId :=
              mapGet?_mapSet_self _ _ _
            rw [getOrCreate_custom_hit hb h2]
  · intro st c1 c2 hwf hb1 hb2 hne
    obtain ⟨hnext, hbound, _, hvals⟩ := hwf
    cases hc1 : mapGet? st.custom c1 with
    | some i1 =>
        rw [getOrCreate_custom_hit hb1 hc1]
        have hmem1 := mapGet?_mem hc1
        cases hc2 : mapGet? st.custom c2 with
        | some i2 =>
            rw [getOrCreate_custom_hit hb2 hc2]
            intro heq
            simp only at heq
            subst heq
            exact hne (map_snd_nodup_key_eq hvals hmem1 (mapGet?_mem hc2))
        | none =>
            rw [getOrCreate_custom_miss hb2 hc2]
            have := hbound _ hmem1
            simp only
            omega
    | none =>
        rw [getOrCreate_custom_miss hb1 hc1]
        simp only
        have hset : mapSet st.custom c1 st.nextId = st.custom ++ [(c1, st.nextId)] :=
          mapSet_of_get_none _ _ _ hc1
        cases hc2 : mapGet? (mapSet st.custom c1 st.nextId) c2 with
        | some i2 =>
            rw [getOrCreate_custom_hit hb2 hc2]
            have hmem2 := mapGet?_mem hc2
            rw [hset] at hmem2
            rcases List.mem_append.mp hmem2 with hin | hin
            · have := hbound _ hin
              simp only
              omega
            · simp only [List.mem_singleton, Prod.mk.injEq] at hin
              exact absurd hin.1.symm hne
        | none =>
            rw [getOrCreate_custom_miss hb2 hc2]
            simp only
            omega

/-- Witness for C1: the three built-in lookups on a fresh registry, a fresh
custom code getting 164 (hence at least 164 and above the empty set of
assigned ids), the repeated lookup, and two distinct custom codes. -/
theorem claim1_numfmt_id_lookup_witness :
    (getOrCreateNumFmtId NumFmtRegistry.new "General").1 = 0 ∧
    (getOrCreateNumFmtId NumFmtRegistry.new "0.00").1 = 2 ∧
    (getOrCreateNumFmtId NumFmtRegistry.new "#,##0.00").1 = 4 ∧
    164 ≤ (getOrCreateNumFmtId NumFmtRegistry.new "$#,##0.00").1 ∧
    (getOrCreateNumFmtId NumFmtRegistry.new "$#,##0.00").1 = 164 ∧
    (getOrCreateNumFmtId (getOrCreateNumFmtId NumFmtRegistry.new "$#,##0.00").2
        "$#,##0.00").1 = (getOrCreateNumFmtId NumFmtRegistry.new "$#,##0.00").1 ∧
    (getOrCreateNumFmtId (getOrCreateNumFmtId NumFmtRegistry.new "$#,##0.00").2
        "0.00000").1 ≠ (getOrCreateNumFmtId NumFmtRegistry.new "$#,##0.00").1 := by
  have hwf : NumFmtWF NumFmtRegistry.new := by
    refine ⟨by decide, ?_, by decide, by decide⟩
    intro e he
    simp [NumFmtRegistry.new] at he
  refine ⟨(claim1_numfmt_id_lookup.1 NumFmtRegistry.new).1,
    (claim1_numfmt_id_lookup.1 NumFmtRegistry.new).2.1,
    (claim1_numfmt_id_lookup.1 NumFmtRegistry.new).2.2,
    (claim1_numfmt_id_lookup.2.1 NumFmtRegistry.new "$#,##0.00" hwf (by decide)).1,
    claim1_numfmt_id_lookup.2.2.1 "$#,##0.00" (by decide),
    claim1_numfmt_id_lookup.2.2.2.1 NumFmtRegistry.new "$#,##0.00",
    claim1_numfmt_id_lookup.2.2.2.2 NumFmtRegistry.new "$#,##0.00" "0.00000" hwf
      (by decide) (by decide) (by decide)⟩

/-! ## C10: reads never mark the worksheet dirty -/

theorem isDirty_false_parts {ws : Worksheet} (h : ws.isDirty = false) :
    ws.dirty = false ∧ ∀ e ∈ ws.cells, e.2.dirty = false := by
  simp only [Worksheet.isDirty, Bool.or_eq_false_iff, List.any_eq_false] at h
  exact ⟨h.1, fun e he => by simpa using h.2 e he⟩

theorem worksheet_cell_clean (ws : Worksheet) (row col : Nat) (h : ws.isDirty = false) :
    (ws.cell row col).1.dirty = false ∧ (ws.cell row col).2.isDirty = false := by
  obtain ⟨hd, hcells⟩ := isDirty_false_parts h
  cases hget : mapGet? ws.cells (addrKey row col) with
  | some c =>
      have hc : c.dirty = false := hcells (addrKey row col, c) (mapGet?_mem hget)
      constructor
      · simp [Worksheet.cell, hget, hc]
      · simpa [Worksheet.cell, hget] using h
  | none =>
      constructor
      · simp [Worksheet.cell, hget]
      · simp only [Worksheet.cell, hget, Worksheet.isDirty, Bool.or_eq_false_iff,
          List.any_eq_false]
        refine ⟨hd, ?_⟩
        rw [mapSet_of_get_none _ _ _ hget]
        intro e he
        rcases List.mem_append.mp he with hin | hin
        · simp [hcells e hin]
        · simp only [List.mem_singleton] at hin
          subst hin
          simp

theorem rangeValuesColStep_clean (ri : Nat) (acc2 : List JSValue × Book) (ci : Nat)
    (h : acc2.2.sheet.isDirty = false) :
    (rangeValuesColStep ri acc2 ci).2.sheet.isDirty = false := by
  simp only [rangeValuesColStep]
  exact (worksheet_cell_clean acc2.2.sheet ri ci h).2

theorem foldl_colStep_clean (ri : Nat) (cols : List Nat) :
    ∀ acc2 : List JSValue × Book, acc2.2.sheet.isDirty = false →
      ((cols.foldl (rangeValuesColStep ri) acc2).2.sheet.isDirty = false) := by
  induction cols with
  | nil => intro acc2 h; simpa using h
  | cons c rest ih =>
      intro acc2 h
      simp only [List.foldl_cons]
      exact ih _ (rangeValuesColStep_clean ri acc2 c h)

theorem foldl_rowStep_clean (cols : List Nat) (rows : List Nat) :
    ∀ acc : List (List JSValue) × Book, acc.2.sheet.isDirty = false →
      ((rows.foldl (rangeValuesRowStep cols) acc).2.sheet.isDirty = false) := by
  induction rows with
  | nil => intro acc h; simpa using h
  | cons r rest ih =>
      intro acc h
      simp only [List.foldl_cons]
      refine ih _ ?_
      simp only [rangeValuesRowStep]
      exact foldl_colStep_clean r cols ([], acc.2) h

theorem rangeValues_clean (bk : Book) (r : RangeAddress) (h : bk.sheet.isDirty = false) :
    (rangeValues bk r).2.sheet.isDirty = false := by
  simp only [rangeValues]
  exact foldl_rowStep_clean _ _ ([], bk) h

/-- C10: on a worksheet that is not dirty (sheet flag unset and all cells
clean), auto-vivifying a cell yields a cell with `dirty = false` and leaves
the worksheet's `dirty` getter `false`; reading a whole range through the
vivifying `values` getter likewise leaves the worksheet clean. -/
theorem claim10_vivification_clean (ws : Worksheet) (row col : Nat)
    (h : ws.isDirty = false) :
    (ws.cell row col).1.dirty = false ∧
    (ws.cell row col).2.isDirty = false ∧
    (∀ (bk : Book) (r : RangeAddress), bk.sheet.isDirty = false →
        (rangeValues bk r).2.sheet.isDirty = false) := by
  obtain ⟨h1, h2⟩ := worksheet_cell_clean ws row col h
  exact ⟨h1, h2, rangeValues_clean⟩

/-- Witness for C10 at the fresh worksheet, cell `(0, 0)` and the range
`A1:C3`. -/
theorem claim10_vivification_clean_witness :
    (Worksheet.new.cell 0 0).1.dirty = false ∧
    (Worksheet.new.cell 0 0).2.isDirty = false ∧
    (rangeValues Book.new rangeA1C3).2.sheet.isDirty = false := by
  have h := claim10_vivification_clean Worksheet.new 0 0 (by decide)
  exact ⟨h.1, h.2.1, h.2.2 Book.new rangeA1C3 (by decide)⟩

/-! ## C5: address codec bijectivity -/

theorem char_toNat_ofNat (n : Nat) (h : n < 55296) : (Char.ofNat n).toNat = n := by
  have hv : n.isValidChar := Or.inl h
  rw [Char.ofNat, dif_pos hv]
  rfl

theorem toUpper_of_upper (c : Char) (h1 : 65 ≤ c.toNat) (h2 : c.toNat ≤ 90) :
    c.toUpper = c := by
  unfold Char.toUpper
  rw [if_neg]
  omega

theorem toUpper_toNat_of_alpha (c : Char) (h : isAsciiAlpha c = true) :
    65 ≤ c.toUpper.toNat ∧ c.toUpper.toNat ≤ 90 := by
  simp only [isAsciiAlpha, Bool.or_eq_true, Bool.and_eq_true, decide_eq_true_eq] at h
  rcases h with h | h
  · rw [toUpper_of_upper c h.1 h.2]
    exact h
  · unfold Char.toUpper
    rw [if_pos (by omega)]
    rw [char_toNat_ofNat _ (by omega)]
    omega

theorem colToLetterAux_congr (f1 : Nat) :
    ∀ (f2 n : Nat), n < f1 → n < f2 → colToLetterAux f1 n = colToLetterAux f2 n := by
  induction f1 with
  | zero => intro f2 n h1 _; omega
  | succ f ih =>
      intro f2 n h1 h2
      cases f2 with
      | zero => omega
      | succ f2p =>
          simp only [colToLetterAux]
          by_cases hn : n < 26
          · simp [hn]
          · simp only [if_neg hn]
            have hlt : n / 26 < n := Nat.div_lt_self (by omega) (by omega)
            rw [ih f2p (n / 26 - 1) (by omega) (by omega)]

theorem colToLetter_eq (n : Nat) :
    colToLetter n = if n < 26 then [Char.ofNat (n % 26 + 65)]
      else colToLetter (n / 26 - 1) ++ [Char.ofNat (n % 26 + 65)] := by
  show colToLetterAux (n + 1) n = _
  simp only [colToLetterAux]
  by_cases hn : n < 26
  · simp [hn]
  · simp only [if_neg hn]
    have hlt : n / 26 < n := Nat.div_lt_self (by omega) (by omega)
    rw [colToLetterAux_congr n (n / 26 - 1 + 1) (n / 26 - 1) (by omega) (by omega)]
    rfl

theorem letterFold_append (l : List Char) (c : Char) :
    letterFold (l ++ [c]) = letterFold l * 26 + (c.toNat - 64) := by
  simp [letterFold, List.foldl_append]

theorem letterFold_colToLetter (n : Nat) : letterFold (colToLetter n) = n + 1 := by
  induction n using Nat.strong_induction_on with
  | _ n ih =>
      rw [colToLetter_eq n]
      by_cases hn : n < 26
      · rw [if_pos hn]
        show 0 * 26 + ((Char.ofNat (n % 26 + 65)).toNat - 64) = n + 1
        rw [char_toNat_ofNat _ (by have := Nat.mod_lt n (show 0 < 26 by omega); omega)]
        have : n % 26 = n := Nat.mod_eq_of_lt hn
        omega
      · rw [if_neg hn, letterFold_append]
        have hlt : n / 26 < n := Nat.div_lt_self (by omega) (by omega)
        rw [ih (n / 26 - 1) (by omega)]
        rw [char_toNat_ofNat _ (by have := Nat.mod_lt n (show 0 < 26 by omega); omega)]
        have hdm := Nat.div_add_mod n 26
        have hmod : n % 26 < 26 := Nat.mod_lt _ (by omega)
        omega

theorem colToLetter_upper (n : Nat) :
    ∀ c ∈ colToLetter n, 65 ≤ c.toNat ∧ c.toNat ≤ 90 := by
  induction n using Nat.strong_induction_on with
  | _ n ih =>
      rw [colToLetter_eq n]
      have hchar : 65 ≤ (Char.ofNat (n % 26 + 65)).toNat ∧
          (Char.ofNat (n % 26 + 65)).toNat ≤ 90 := by
        rw [char_toNat_ofNat _ (by have := Nat.mod_lt n (show 0 < 26 by omega); omega)]
        have : n % 26 < 26 := Nat.mod_lt _ (by omega)
        omega
      by_cases hn : n < 26
      · rw [if_pos hn]
        intro c hc
        simp only [List.mem_singleton] at hc
        subst hc
        exact hchar
      · rw [if_neg hn]
        intro c hc
        rcases List.mem_append.mp hc with hin | hin
        · have hlt : n / 26 < n := Nat.div_lt_self (by omega) (by omega)
          exact ih (n / 26 - 1) (by omega) c hin
        · simp only [List.mem_singleton] at hin
          subst hin
          exact hchar

theorem map_toUpper_colToLetter (n : Nat) :
    (colToLetter n).map Char.toUpper = colToLetter n := by
  have h : ∀ c ∈ colToLetter n, Char.toUpper c = c := fun c hc =>
    toUpper_of_upper c (colToLetter_upper n c hc).1 (colToLetter_upper n c hc).2
  calc (colToLetter n).map Char.toUpper = (colToLetter n).map id := List.map_congr_left h
    _ = colToLetter n := List.map_id _

theorem letterFold_pos (l : List Char) (hne : l ≠ [])
    (hall : ∀ c ∈ l, 65 ≤ c.toNat) : 1 ≤ letterFold l := by
  induction l using List.reverseRecOn with
  | nil => exact absurd rfl hne
  | append_singleton M c _ =>
      rw [letterFold_append]
      have := hall c (by simp)
      omega

theorem colToLetter_letterFold (l : List Char) (hne : l ≠ [])
    (hall : ∀ c ∈ l, 65 ≤ c.toNat ∧ c.toNat ≤ 90) :
    colToLetter (letterFold l - 1) = l := by
  induction l using List.reverseRecOn with
  | nil => exact absurd rfl hne
  | append_singleton M c ih =>
      rw [letterFold_append]
      have hc := hall c (by simp)
      by_cases hM : M = []
      · subst hM
        have h0 : letterFold ([] : List Char) = 0 := rfl
        rw [h0, colToLetter_eq]
        rw [if_pos (by omega)]
        have harg : (0 * 26 + (c.toNat - 64) - 1) % 26 + 65 = c.toNat := by
          have : 0 * 26 + (c.toNat - 64) - 1 < 26 := by omega
          rw [Nat.mod_eq_of_lt this]
          omega
        rw [harg, Char.ofNat_toNat]
        simp
      · have hvM : 1 ≤ letterFold M :=
          letterFold_pos M hM (fun x hx => (hall x (List.mem_append_left _ hx)).1)
        have hn26 : ¬ (letterFold M * 26 + (c.toNat - 64) - 1 < 26) := by omega
        rw [colToLetter_eq, if_neg hn26]
        have hrewrite : letterFold M * 26 + (c.toNat - 64) - 1 =
            (c.toNat - 64 - 1) + letterFold M * 26 := by omega
        have hmod : (letterFold M * 26 + (c.toNat - 64) - 1) % 26 = c.toNat - 64 - 1 := by
          rw [hrewrite, Nat.add_mul_mod_self_right]
          exact Nat.mod_eq_of_lt (by omega)
        have hdiv : (letterFold M * 26 + (c.toNat - 64) - 1) / 26 = letterFold M := by
          rw [hrewrite, Nat.add_mul_div_right _ _ (show 0 < 26 by omega)]
          rw [Nat.div_eq_of_lt (by omega)]
          omega
        rw [hmod, hdiv]
        rw [ih hM (fun x hx => hall x (List.mem_append_left _ hx))]
        have hch : c.toNat - 64 - 1 + 65 = c.toNat := by omega
        rw [hch, Char.ofNat_toNat]

theorem colToLetterI_letterToCol (letters : List Char) (hne : letters ≠ [])
    (hall : ∀ c ∈ letters, isAsciiAlpha c = true) :
    colToLetterI (letterToCol letters) = letters.map Char.toUpper := by
  have hLne : letters.map Char.toUpper ≠ [] := by
    simpa using hne
  have hLall : ∀ c ∈ letters.map Char.toUpper, 65 ≤ c.toNat ∧ c.toNat ≤ 90 := by
    intro c hc
    rcases List.mem_map.mp hc with ⟨x, hx, hxc⟩
    subst hxc
    exact toUpper_toNat_of_alpha x (hall x hx)
  have hpos : 1 ≤ letterFold (letters.map Char.toUpper) :=
    letterFold_pos _ hLne (fun c hc => (hLall c hc).1)
  unfold colToLetterI letterToCol letterVal
  rw [if_neg (by omega)]
  have htn : ((letterFold (letters.map Char.toUpper) : Int) - 1).toNat =
      letterFold (letters.map Char.toUpper) - 1 := by omega
  rw [htn, colToLetter_letterFold _ hLne hLall]

theorem int_toString_natCast (n : Nat) : toString ((n : Nat) : Int) = toString n := rfl

/-- C5 as amended: the column codec round-trips every index below 10000
(indeed every index); and for every address string the parser accepts whose
row digits are in canonical decimal form (no leading zeros),
`toAddress(parseAddress(a))` equals the canonical form of `a` (anchors
stripped, letters upper-cased).  The original claim fails on addresses with
redundant leading zeros in the row, for example `A01`. -/
theorem claim5_codec_bijectivity :
    (∀ c : Nat, c < 10000 → letterToCol (colToLetter c) = (c : Int)) ∧
    (∀ (a : List Char) (addr : CellAddress), parseAddress a = some addr →
        (toString (parseDigits ((a.filter (fun ch => ch ≠ '$')).dropWhile isAsciiAlpha))).data =
          (a.filter (fun ch => ch ≠ '$')).dropWhile isAsciiAlpha →
        toAddress addr.row addr.col = canonicalForm a) := by
  constructor
  · intro c _
    unfold letterToCol letterVal
    rw [map_toUpper_colToLetter, letterFold_colToLetter]
    omega
  · intro a addr hparse hdig
    simp only [parseAddress] at hparse
    split at hparse
    case isFalse => exact Option.noConfusion hparse
    case isTrue hg =>
      obtain ⟨hletters, _hdigits, _hall⟩ := hg
      have haddr := (Option.some.inj hparse).symm
      subst haddr
      have halpha : ∀ c ∈ (a.filter (fun ch => ch ≠ '$')).takeWhile isAsciiAlpha,
          isAsciiAlpha c = true := fun c hc => List.mem_takeWhile_imp hc
      unfold toAddress canonicalForm
      simp only
      rw [colToLetterI_letterToCol _ hletters halpha]
      congr 1
      have hrow : (parseDigits ((a.filter (fun ch => ch ≠ '$')).dropWhile isAsciiAlpha) : Int)
          - 1 + 1 =
          ((parseDigits ((a.filter (fun ch => ch ≠ '$')).dropWhile isAsciiAlpha) : Nat) : Int) := by
        omega
      rw [hrow, int_toString_natCast, hdig]

/-- Witness for C5 at column 27 and the address `$b$12` (canonical form
`B12`). -/
theorem claim5_codec_bijectivity_witness :
    letterToCol (colToLetter 27) = (27 : Int) ∧
    toAddress (11 : Int) (1 : Int) = "B12".data := by
  constructor
  · exact claim5_codec_bijectivity.1 27 (by omega)
  · have h := claim5_codec_bijectivity.2 "$b$12".data { row := 11, col := 1 }
      (by decide) (by decide)
    rw [h]
    decide

/-- C5 counterexample: `A01` is accepted by `parseAddress` (it matches the
`^([A-Za-z]+)(\d+)$` pattern), but the round trip renders `A1`, which
differs from the canonical form `A01` (anchor stripping and upper-casing
leave `A01` unchanged). -/
theorem claim5_codec_bijectivity_counterexample :
    parseAddress "A01".data = some { row := 0, col := 0 } ∧
    toAddress (0 : Int) (0 : Int) = "A1".data ∧
    canonicalForm "A01".data = "A01".data ∧
    "A1".data ≠ "A01".data := by
  decide

/-! ## C4: save orchestration frame -/

theorem applyWrites_concat (files : List (String × String)) (ws : List (String × String))
    (e : String × String) :
    applyWrites files (ws ++ [e]) = mapSet (applyWrites files ws) e.1 e.2 := by
  simp [applyWrites, List.foldl_append]

theorem mapGet?_applyWrites (files : List (String × String)) (ws : List (String × String))
    (p : String) :
    mapGet? (applyWrites files ws) p =
      ((ws.filter (fun e => e.1 = p)).getLast?).elim (mapGet? files p) (fun e => some e.2) := by
  induction ws using List.reverseRecOn with
  | nil => simp [applyWrites]
  | append_singleton ws e ih =>
      rw [applyWrites_concat, List.filter_append]
      by_cases he : e.1 = p
      · have hf : List.filter (fun e => decide (e.1 = p)) [e] = [e] := by
          simp [List.filter, he]
        rw [hf, List.getLast?_concat]
        subst he
        simp [mapGet?_mapSet_self]
      · have hf : List.filter (fun e => decide (e.1 = p)) [e] = [] := by
          simp [List.filter, he]
        rw [hf, List.append_nil]
        rw [mapGet?_mapSet_ne _ _ _ _ (fun hp => he hp.symm)]
        exact ih

theorem filter_fst_eq_nil {l : List (String × String)} {p : String}
    (h : ∀ e ∈ l, e.1 ≠ p) : l.filter (fun e => e.1 = p) = [] := by
  induction l with
  | nil => rfl
  | cons e rest ih =>
      have he : ¬ (e.1 = p) := h e (List.mem_cons_self _ _)
      simp only [List.filter_cons, he, decide_eq_false he, Bool.false_eq_true, if_false]
      exact ih (fun x hx => h x (List.mem_cons_of_mem _ hx))

theorem flatMap_filter_nil {α : Type} (l : List α) (f : α → List (String × String))
    (p : String) (h : ∀ x ∈ l, (f x).filter (fun e => e.1 = p) = []) :
    (l.flatMap f).filter (fun e => e.1 = p) = [] := by
  induction l with
  | nil => rfl
  | cons a rest ih =>
      rw [List.flatMap_cons, List.filter_append, h a (List.mem_cons_self _ _)]
      rw [List.nil_append]
      exact ih (fun x hx => h x (List.mem_cons_of_mem _ hx))

theorem sheetWrites_filter (wb : Workbook) (nm : String) (ws : Worksheet) (t : String)
    (hmem : (nm, ws) ∈ wb.sheets)
    (hres : resolveSheetTarget wb nm = some t)
    (hnodup : (wb.sheets.map Prod.fst).Nodup)
    (hdist : ∀ e2 ∈ wb.sheets, e2.1 ≠ nm → resolveSheetTarget wb e2.1 ≠ some t) :
    (sheetWrites wb).filter (fun e => e.1 = "xl/" ++ t) =
      if ws.isDirty || wb.dirty then [("xl/" ++ t, worksheetToXml ws)] else [] := by
  have hinj : Function.Injective (fun s : String => "xl/" ++ s) := by
    intro x y hxy
    have hd := congrArg String.data hxy
    rw [String.data_append, String.data_append] at hd
    have h2 := List.append_cancel_left hd
    exact congrArg String.mk h2
  have hstep : ∀ e2 : String × Worksheet, e2 ∈ wb.sheets → e2.1 ≠ nm →
      ((if e2.2.isDirty || wb.dirty then
          match resolveSheetTarget wb e2.1 with
          | some t2 => [("xl/" ++ t2, worksheetToXml e2.2)]
          | none => []
        else []).filter (fun e => e.1 = "xl/" ++ t)) = [] := by
    intro e2 hmem2 hne2
    by_cases hd : e2.2.isDirty || wb.dirty
    · rw [if_pos hd]
      cases hres2 : resolveSheetTarget wb e2.1 with
      | none => rfl
      | some t2 =>
          apply filter_fst_eq_nil
          intro e he
          simp only [List.mem_singleton] at he
          subst he
          intro hp
          have ht2 : t2 = t := hinj hp
          subst ht2
          exact hdist e2 hmem2 hne2 hres2
    · rw [if_neg hd]
      rfl
  unfold sheetWrites
  revert hmem hnodup hdist hstep
  generalize wb.sheets = l
  induction l with
  | nil => intro hmem; exact absurd hmem (List.not_mem_nil _)
  | cons e rest ih =>
      intro hmem hnodup hdist hstep
      rw [List.flatMap_cons, List.filter_append]
      rcases List.mem_cons.mp hmem with hhead | htail
      · subst hhead
        have hrest : (rest.flatMap fun e =>
            if e.2.isDirty || wb.dirty then
              match resolveSheetTarget wb e.1 with
              | some t2 => [("xl/" ++ t2, worksheetToXml e.2)]
              | none => []
            else []).filter (fun e => e.1 = "xl/" ++ t) = [] := by
          apply flatMap_filter_nil
          intro x hx
          have hxne : x.1 ≠ nm := by
            intro hx1
            rw [List.map_cons, List.nodup_cons] at hnodup
            have hmm := List.mem_map_of_mem Prod.fst hx
            rw [hx1] at hmm
            exact hnodup.1 hmm
          exact hstep x (List.mem_cons_of_mem _ hx) hxne
        rw [hrest, List.append_nil]
        by_cases hd : ws.isDirty || wb.dirty
        · rw [if_pos hd]
          simp only [if_pos hd, hres]
          simp [List.filter]
        · rw [if_neg hd]
          simp only [if_neg hd]
          rfl
      · rw [List.map_cons, List.nodup_cons] at hnodup
        have hene : e.1 ≠ nm := by
          intro he1
          have hnm : nm ∈ rest.map Prod.fst := List.mem_map_of_mem Prod.fst htail
          exact hnodup.1 (he1 ▸ hnm)
        rw [hstep e (List.mem_cons_self _ _) hene, List.nil_append]
        exact ih htail hnodup.2
          (fun e2 he2 => hdist e2 (List.mem_cons_of_mem _ he2))
          (fun e2 he2 => hstep e2 (List.mem_cons_of_mem _ he2))

/-- C4 as amended: in `_updateFiles`, provided no worksheet or pivot part
aliases the fixed part paths, the shared-string part is rewritten exactly
when the shared string table is dirty OR non-empty, the style part exactly
when the style table is dirty OR the workbook is dirty OR the part does not
exist yet, and a cached worksheet part (resolving to a target no other part
writes) exactly when that worksheet or the workbook is dirty; in every
other case the previously stored bytes are left unchanged. -/
theorem claim4_selective_rewrites (wb : Workbook)
    (hshared : ∀ e ∈ sheetWrites wb ++ pivotWrites wb, e.1 ≠ "xl/sharedStrings.xml")
    (hstyles : ∀ e ∈ sheetWrites wb ++ pivotWrites wb, e.1 ≠ "xl/styles.xml") :
    (mapGet? wb.updateFiles "xl/sharedStrings.xml" =
      if wb.sharedStrings.dirty || decide (0 < wb.sharedStrings.count) then
        some (sharedStringsToXml wb.sharedStrings)
      else mapGet? wb.files "xl/sharedStrings.xml") ∧
    (mapGet? wb.updateFiles "xl/styles.xml" =
      if wb.styles.dirty || wb.dirty || (mapGet? wb.files "xl/styles.xml").isNone then
        some (stylesToXml wb.styles)
      else mapGet? wb.files "xl/styles.xml") ∧
    (∀ (nm : String) (ws : Worksheet) (t : String),
        (nm, ws) ∈ wb.sheets →
        resolveSheetTarget wb nm = some t →
        (wb.sheets.map Prod.fst).Nodup →
        (∀ e2 ∈ wb.sheets, e2.1 ≠ nm → resolveSheetTarget wb e2.1 ≠ some t) →
        (∀ e ∈ baseWrites wb ++ sharedWrites wb ++ stylesWrites wb ++ pivotWrites wb,
            e.1 ≠ "xl/" ++ t) →
        mapGet? wb.updateFiles ("xl/" ++ t) =
          if ws.isDirty || wb.dirty then some (worksheetToXml ws)
          else mapGet? wb.files ("xl/" ++ t)) := by
  have hbase : ∀ p : String, p ≠ "xl/workbook.xml" → p ≠ "xl/_rels/workbook.xml.rels" →
      p ≠ "[Content_Types].xml" → p ≠ "_rels/.rels" →
      (baseWrites wb).filter (fun e => e.1 = p) = [] := by
    intro p h1 h2 h3 h4
    apply filter_fst_eq_nil
    intro e he
    unfold baseWrites at he
    rcases List.mem_append.mp he with h3mem | hifmem
    · simp only [List.mem_cons, List.not_mem_nil, or_false] at h3mem
      rcases h3mem with he1 | he1 | he1
      · rw [he1]; exact fun h => h1 h.symm
      · rw [he1]; exact fun h => h2 h.symm
      · rw [he1]; exact fun h => h3 h.symm
    · split at hifmem
      · simp only [List.mem_singleton] at hifmem
        rw [hifmem]; exact fun h => h4 h.symm
      · exact absurd hifmem (List.not_mem_nil _)
  refine ⟨?_, ?_, ?_⟩
  · rw [Workbook.updateFiles, mapGet?_applyWrites, updateWrites]
    repeat rw [List.filter_append]
    rw [hbase _ (by decide) (by decide) (by decide) (by decide)]
    have hsty : (stylesWrites wb).filter (fun e => e.1 = "xl/sharedStrings.xml") = [] := by
      apply filter_fst_eq_nil
      intro e he
      unfold stylesWrites at he
      split at he
      · simp only [List.mem_singleton] at he
        rw [he]
        exact (by decide : ¬ (("xl/styles.xml" : String) = "xl/sharedStrings.xml"))
      · exact absurd he (List.not_mem_nil _)
    have hsh : (sheetWrites wb).filter (fun e => e.1 = "xl/sharedStrings.xml") = [] :=
      filter_fst_eq_nil (fun e he => hshared e (List.mem_append_left _ he))
    have hpv : (pivotWrites wb).filter (fun e => e.1 = "xl/sharedStrings.xml") = [] :=
      filter_fst_eq_nil (fun e he => hshared e (List.mem_append_right _ he))
    rw [hsty, hsh, hpv]
    unfold sharedWrites
    split
    · simp [List.filter]
    · simp
  · rw [Workbook.updateFiles, mapGet?_applyWrites, updateWrites]
    repeat rw [List.filter_append]
    rw [hbase _ (by decide) (by decide) (by decide) (by decide)]
    have hssw : (sharedWrites wb).filter (fun e => e.1 = "xl/styles.xml") = [] := by
      apply filter_fst_eq_nil
      intro e he
      unfold sharedWrites at he
      split at he
      · simp only [List.mem_singleton] at he
        rw [he]
        exact (by decide : ¬ (("xl/sharedStrings.xml" : String) = "xl/styles.xml"))
      · exact absurd he (List.not_mem_nil _)
    have hsh : (sheetWrites wb).filter (fun e => e.1 = "xl/styles.xml") = [] :=
      filter_fst_eq_nil (fun e he => hstyles e (List.mem_append_left _ he))
    have hpv : (pivotWrites wb).filter (fun e => e.1 = "xl/styles.xml") = [] :=
      filter_fst_eq_nil (fun e he => hstyles e (List.mem_append_right _ he))
    rw [hssw, hsh, hpv]
    unfold stylesWrites
    split
    · simp [List.filter]
    · simp
  · intro nm ws t hmem hres hnodup hdist hno
    rw [Workbook.updateFiles, mapGet?_applyWrites, updateWrites]
    repeat rw [List.filter_append]
    have hb : (baseWrites wb).filter (fun e => e.1 = "xl/" ++ t) = [] :=
      filter_fst_eq_nil (fun e he => hno e (by simp [List.mem_append]; tauto))
    have hssw : (sharedWrites wb).filter (fun e => e.1 = "xl/" ++ t) = [] :=
      filter_fst_eq_nil (fun e he => hno e (by simp [List.mem_append]; tauto))
    have hsty : (stylesWrites wb).filter (fun e => e.1 = "xl/" ++ t) = [] :=
      filter_fst_eq_nil (fun e he => hno e (by simp [List.mem_append]; tauto))
    have hpv : (pivotWrites wb).filter (fun e => e.1 = "xl/" ++ t) = [] :=
      filter_fst_eq_nil (fun e he => hno e (by simp [List.mem_append]; tauto))
    rw [hb, hssw, hsty, hpv]
    rw [sheetWrites_filter wb nm ws t hmem hres hnodup hdist]
    by_cases hd : ws.isDirty || wb.dirty
    · rw [if_pos hd, if_pos hd]
      simp
    · rw [if_neg hd, if_neg hd]
      simp

/-- Witness for C4 as amended, at the loaded workbook `wb5` (clean empty
shared strings: part untouched; clean styles with the part present and a
clean workbook flag: part untouched; a dirty sheet `S`: its part
rewritten). -/
theorem claim4_selective_rewrites_witness :
    mapGet? wb5.updateFiles "xl/sharedStrings.xml" = some "OLD-SST" ∧
    mapGet? wb5.updateFiles "xl/styles.xml" = some "OLD-STYLES" ∧
    mapGet? wb5.updateFiles "xl/worksheets/sheet1.xml" = some (worksheetToXml ws5) := by
  have h := claim4_selective_rewrites wb5 (by decide) (by decide)
  refine ⟨?_, ?_, ?_⟩
  · rw [h.1]; decide
  · rw [h.2.1]; decide
  · have h3 := h.2.2 "S" ws5 "worksheets/sheet1.xml" (by decide) (by decide)
      (by decide) (by decide) (by decide)
    rw [show ("xl/" ++ "worksheets/sheet1.xml" : String) = "xl/worksheets/sheet1.xml" from rfl]
      at h3
    rw [h3]
    decide

/-- C4 counterexample: in the loaded workbook `wb4` the shared string table
is NOT dirty, yet `_updateFiles` writes the shared-string part (its
condition is `dirty || count > 0`), replacing the previously loaded bytes —
the claim says the part is rewritten only when the dirty flag is set. -/
theorem claim4_selective_rewrites_counterexample :
    wb4.sharedStrings.dirty = false ∧
    "xl/sharedStrings.xml" ∈ (updateWrites wb4).map Prod.fst ∧
    mapGet? wb4.files "xl/sharedStrings.xml" = some "ORIGINAL-SST" ∧
    mapGet? wb4.updateFiles "xl/sharedStrings.xml" ≠ some "ORIGINAL-SST" := by
  decide

end Excel
